import Mathlib

/-!
# Azure Monitor exporter for OpenTelemetry: span mapping and transmission

A shallow embedding of `appinsights/protocol.go`, `appinsights/transmit.go`,
`appinsights/exporter.go` and of `parseConnectionString` in `appinsights/appinsights.go`,
followed by theorems about it.

Conventions of the embedding:

* Go `int`, `int32`, `int64` and `time.Duration` values are `Int`; where the source
  converts between widths the wrap-around is written out (`AsInt32`).
* A Go `map[string]string` is an association list with at most one entry per key
  (`StrMap`), a nil-able pointer is an `Option`.
* A run-time panic is the error side of `Except Panic`.
* What the program gets from the Go standard library, the host and the network is a
  field of `Lib`; the functions of the program take it as their first argument.
-/

namespace AppInsights

/-! ## Strings, maps and `fmt` verbs -/

/-- Go `map[string]string`: association list, one entry per key. -/
abbrev StrMap := List (String × String)

/-- Assignment `m[k] = v`: replaces the entry of `k` when there is one, adds one otherwise. -/
def StrMap.set : StrMap → String → String → StrMap
  | [], k, v => [(k, v)]
  | (k', v') :: m, k, v => if k' = k then (k, v) :: m else (k', v') :: StrMap.set m k v

/-- Lookup `m[k]` with the comma-ok result. -/
def StrMap.get : StrMap → String → Option String
  | [], _ => none
  | (k', v') :: m, k => if k' = k then some v' else StrMap.get m k

/-- Verb `%d` of `fmt.Sprintf` on an integer. -/
def sprintfD (n : Int) : String :=
  if n < 0 then "-" ++ Nat.repr n.natAbs else Nat.repr n.natAbs

/-- Verb `%0wd` of `fmt.Sprintf`: at least `w` characters, zero-padded after the sign. -/
def sprintfD0 (w : Nat) (n : Int) : String :=
  let prec := if n < 0 then w - 1 else w
  let ds := Nat.repr n.natAbs
  let padded := String.mk (List.replicate (prec - ds.length) '0') ++ ds
  if n < 0 then "-" ++ padded else padded

/-- Go `strings.TrimLeft(s, cutset)`. -/
def trimLeft (s : String) (cutset : String) : String :=
  String.mk (s.toList.dropWhile (fun c => cutset.toList.contains c))

/-! ## `time.Duration` -/

def Nanosecond : Int := 1
def Microsecond : Int := 1000 * Nanosecond
def Millisecond : Int := 1000 * Microsecond
def Second : Int := 1000 * Millisecond
def Minute : Int := 60 * Second
def Hour : Int := 60 * Minute

def minDuration : Int := -(2 ^ 63)
def maxDuration : Int := 2 ^ 63 - 1

/-- Two's-complement wrap of an integer into `int64`. -/
def wrap64 (x : Int) : Int := (x + 2 ^ 63) % 2 ^ 64 - 2 ^ 63

/-- The helper `lessThanHalf(x, y)` of package `time`: `uint64(x)+uint64(x) < uint64(y)`. -/
def lessThanHalf (x y : Int) : Bool :=
  decide ((x % 2 ^ 64 + x % 2 ^ 64) % 2 ^ 64 < y % 2 ^ 64)

/-- Go `Duration.Round(m)`. -/
def durationRound (d m : Int) : Int :=
  if m ≤ 0 then d
  else
    let r := Int.tmod d m
    if d < 0 then
      let r := -r
      if lessThanHalf r m then wrap64 (d + r)
      else
        let d1 := wrap64 (d - m + r)
        if d1 < d then d1 else minDuration
    else if lessThanHalf r m then wrap64 (d - r)
    else
      let d1 := wrap64 (d + m - r)
      if d1 > d then d1 else maxDuration

/-- Source: `fmtDuration` in `protocol.go`. Division and remainder truncate toward zero. -/
def fmtDuration (duration : Int) : String :=
  let duration := durationRound duration Nanosecond
  let h := Int.tdiv duration Hour
  let duration := duration - h * Hour
  let d := Int.tdiv h 24
  let h := Int.tmod h 24
  let m := Int.tdiv duration Minute
  let duration := duration - m * Minute
  let s := Int.tdiv duration Second
  let duration := duration - s * Second
  let us := Int.tdiv duration Microsecond
  sprintfD d ++ "." ++ sprintfD0 2 h ++ ":" ++ sprintfD0 2 m ++ ":" ++ sprintfD0 2 s ++ "."
    ++ sprintfD0 6 us

/-! ## OpenTelemetry input types -/

/-- Go `trace.SpanKind`. -/
inductive SpanKind
  | unspecified
  | internal
  | server
  | client
  | producer
  | consumer
  deriving DecidableEq, Repr

/-- Lower-case hexadecimal text of a byte string, as `hex.EncodeToString`. -/
def hexEncode (bs : List Nat) : String :=
  String.mk (bs.flatMap (fun b => [Nat.digitChar (b / 16 % 16), Nat.digitChar (b % 16)]))

/-- Go `trace.TraceID`, 16 bytes. -/
structure TraceID where
  bytes : List Nat
  deriving DecidableEq, Repr

/-- Go `trace.SpanID`, 8 bytes. -/
structure SpanID where
  bytes : List Nat
  deriving DecidableEq, Repr

def TraceID.String (t : TraceID) : String := hexEncode t.bytes

def SpanID.String (s : SpanID) : String := hexEncode s.bytes

/-- A span id is valid when it has a non-zero byte. -/
def SpanID.IsValid (s : SpanID) : Bool := s.bytes.any (fun b => b != 0)

structure SpanContext where
  TraceID : TraceID
  SpanID : SpanID
  deriving DecidableEq, Repr

/-- Go `attribute.Value`: the raw 64-bit payload and the string payload. -/
structure Value where
  numeric : Nat
  stringly : String
  deriving DecidableEq, Repr

/-- Go `Value.AsString`. -/
def Value.AsString (v : Value) : String := v.stringly

/-- Go `Value.AsInt32`: the low 32 bits of the raw payload, read as a signed number. -/
def Value.AsInt32 (v : Value) : Int :=
  let low : Nat := v.numeric % 2 ^ 32
  if low < 2 ^ 31 then Int.ofNat low else Int.ofNat low - 2 ^ 32

/-- Go `attribute.IntValue` on a 64-bit platform. -/
def IntValue (v : Int) : Value := ⟨(v % 2 ^ 64).toNat, ""⟩

/-- Go `attribute.StringValue`. -/
def StringValue (s : String) : Value := ⟨0, s⟩

structure KeyValue where
  Key : String
  Value : Value
  deriving DecidableEq, Repr

def HTTPMethodKey : String := "http.method"
def HTTPRouteKey : String := "http.route"
def HTTPTargetKey : String := "http.target"
def HTTPHostKey : String := "http.host"
def HTTPSchemeKey : String := "http.scheme"
def HTTPURLKey : String := "http.url"
def HTTPStatusCodeKey : String := "http.status_code"

/-- Go `codes.Ok`. -/
def codesOk : Nat := 2

/-- An instant of `time.Time`: wall clock in nanoseconds and the monotonic reading. -/
structure Time where
  unixNano : Int
  mono : Option Int
  deriving DecidableEq, Repr

/-- The fields of `export.SpanSnapshot` that the exporter reads. -/
structure Span where
  SpanContext : SpanContext
  ParentSpanID : SpanID
  SpanKind : SpanKind
  Name : String
  StartTime : Time
  EndTime : Time
  Attributes : List KeyValue
  StatusCode : Nat
  deriving DecidableEq, Repr

/-- Source: `Process` in `appinsights.go`. -/
structure Process where
  ServiceName : String
  Tags : List KeyValue
  deriving DecidableEq, Repr

/-! ## `net/url` -/

structure Userinfo where
  username : String
  password : String
  passwordSet : Bool
  deriving DecidableEq, Repr

/-- Go `url.URL`. -/
structure URL where
  Scheme : String
  Opaque : String
  User : Option Userinfo
  Host : String
  Path : String
  RawPath : String
  ForceQuery : Bool
  RawQuery : String
  Fragment : String
  RawFragment : String
  deriving DecidableEq, Repr

/-- Go `(*URL).setPath`: sets `Path` and `RawPath` from an escaped path; the URL is left
as it was when the path does not unescape. -/
def URL.setPath (unescapePath : String → Option String) (escapePath : String → String)
    (u : URL) (p : String) : URL :=
  match unescapePath p with
  | none => u
  | some path => { u with Path := path, RawPath := if p = escapePath path then "" else p }

/-! ## The wire format (`protocol.go`) -/

/-- Source: `RemoteDependencyData` in `protocol.go`. A `float64` is kept as its bits. -/
structure RemoteDependencyData where
  Ver : Int
  Name : String
  ID : String
  ResultCode : String
  Duration : String
  Success : Bool
  Data : String
  Target : String
  /-- The field `Type` of the source. -/
  Type_ : String
  Properties : Option StrMap
  Measurements : Option (List (String × Nat))
  deriving DecidableEq, Repr

/-- Source: `RequestData` in `protocol.go`. -/
structure RequestData where
  Ver : Int
  ID : String
  Source : String
  Name : String
  Duration : String
  ResponseCode : String
  Success : Bool
  URL : String
  Properties : Option StrMap
  Measurements : Option (List (String × Nat))
  deriving DecidableEq, Repr

/-- The dynamic type and value of the `interface{}` field `Data.BaseData`. -/
inductive BaseData
  | request (d : RequestData)
  | remoteDependency (d : RemoteDependencyData)
  deriving DecidableEq, Repr

/-- Source: `Data` in `protocol.go`. -/
structure Data where
  BaseType : String
  BaseData : BaseData
  deriving DecidableEq, Repr

/-- Source: `Envelope` in `protocol.go`. -/
structure Envelope where
  Ver : Int
  Name : String
  Time : String
  SampleRate : Nat
  Seq : String
  IKey : String
  Tags : StrMap
  Data : Option Data
  deriving DecidableEq, Repr

/-! ## HTTP and JSON (`transmit.go`) -/

/-- Source: `transmitError` in `transmit.go`. -/
structure transmitError where
  Index : Int
  StatusCode : Int
  Message : String
  deriving DecidableEq, Repr

/-- Source: `transmitResult` in `transmit.go`. An element of `Errors` is a pointer. -/
structure transmitResult where
  Received : Int
  Accepted : Int
  Errors : List (Option transmitError)
  retryAfter : Option Time
  deriving DecidableEq, Repr

/-- What `Decoder.Decode(&result)` does to the result it is given. -/
inductive Decoded
  /-- Decode returns an error; the exported fields hold whatever was decoded. -/
  | invalid (msg : String) (Received Accepted : Int) (Errors : List (Option transmitError))
  /-- The body is the JSON value `null`: the pointer is set to nil. -/
  | null
  /-- The body is a JSON object: the exported fields are set from it. -/
  | object (Received Accepted : Int) (Errors : List (Option transmitError))
  deriving DecidableEq, Repr

structure Request where
  Method : String
  URL : String
  Header : List (String × List String)
  Body : String
  deriving DecidableEq, Repr

structure Response where
  StatusCode : Int
  Header : List (String × List String)
  Body : String
  deriving DecidableEq, Repr

/-- Go `Header.Set`. -/
def headerSet : List (String × List String) → String → String → List (String × List String)
  | [], k, v => [(k, [v])]
  | (k', vs) :: h, k, v => if k' = k then (k, [v]) :: h else (k', vs) :: headerSet h k v

/-- Lookup `h[k]` with the comma-ok result. -/
def headerGet : List (String × List String) → String → Option (List String)
  | [], _ => none
  | (k', vs) :: h, k => if k' = k then some vs else headerGet h k

/-! ## The standard library, the host and the network -/

/-- What the program calls but does not define. An error result is `none`, or the
error's text where the program prints it. -/
structure Lib where
  /-- The package variable `hostname`, from `os.Hostname()`. -/
  hostname : String
  /-- The method chain `t.UTC().Format(layout)`. -/
  timeFormat : Time → String → String
  /-- The method `t.Sub(u)`, a `time.Duration`. -/
  timeSub : Time → Time → Int
  /-- The function `time.Parse(layout, value)`. -/
  timeParse : String → String → Option Time
  /-- The package function `url.Parse`. -/
  urlParse : String → Option URL
  /-- The method `(*URL).EscapedPath`. -/
  escapedPath : URL → String
  /-- The function `resolvePath(base, ref)` of `net/url`. -/
  resolvePath : String → String → String
  /-- The function `unescape(s, encodePath)` of `net/url`. -/
  unescapePath : String → Option String
  /-- The function `escape(s, encodePath)` of `net/url`. -/
  escapePath : String → String
  /-- The method `(*URL).ResolveReference` on a non-nil receiver. -/
  resolveReference : URL → URL → URL
  /-- The method `(*URL).String`. -/
  urlString : URL → String
  /-- The function `json.Marshal` on the batch. -/
  jsonMarshal : List Envelope → Except String String
  /-- The function `http.NewRequestWithContext(ctx, method, url, body)`. -/
  newRequest : String → String → String → Except String Request
  /-- The method `client.Do` of the default client. -/
  clientDo : Request → Except String Response
  /-- The call `json.NewDecoder(body).Decode(&result)`. -/
  jsonDecode : String → Decoded

/-- A run-time panic. -/
inductive Panic
  | nilDereference
  | indexOutOfRange
  deriving DecidableEq, Repr

/-! ## Mapping a span to an envelope (`protocol.go`) -/

/-- The package variable `platform`. -/
def platform : String := "darwin"

/-- The constant `remoteDependency`. -/
def remoteDependency : String := "Microsoft.Applicationappinsights.RemoteDependency"

/-- Go `(*URL).ResolveReference`. On a nil receiver the copy of `ref` is made, then
`u.Scheme` is read when `ref.Scheme` is empty; otherwise `ref` has a scheme, and the
absolute case returns the copy with its path resolved. -/
def URL.ResolveReference (lib : Lib) (u : Option URL) (ref : URL) : Except Panic URL :=
  match u with
  | some base => pure (lib.resolveReference base ref)
  | none =>
    if ref.Scheme = "" then throw Panic.nilDereference
    else
      pure (URL.setPath lib.unescapePath lib.escapePath ref
        (lib.resolvePath (lib.escapedPath ref) ""))

/-- Go `(*URL).Parse`: parses `ref` and resolves it against the receiver; nil on a parse
error. -/
def URL.Parse (lib : Lib) (u : Option URL) (ref : String) : Except Panic (Option URL) :=
  match lib.urlParse ref with
  | none => pure none
  | some refURL => do
    let r ← URL.ResolveReference lib u refURL
    pure (some r)

/-- The local variables of the attribute loop of the request branch. -/
structure RequestVars where
  method : String
  route : String
  url : String
  host : String
  path : String
  scheme : String
  status : Int
  deriving DecidableEq, Repr

/-- One iteration of the attribute loop of the request branch (the `switch`). -/
def requestAttr (v : RequestVars) (attr : KeyValue) : RequestVars :=
  if attr.Key = HTTPMethodKey then { v with method := attr.Value.AsString }
  else if attr.Key = HTTPRouteKey then { v with route := attr.Value.AsString }
  else if attr.Key = HTTPTargetKey then { v with path := attr.Value.AsString }
  else if attr.Key = HTTPHostKey then { v with host := attr.Value.AsString }
  else if attr.Key = HTTPSchemeKey then { v with scheme := attr.Value.AsString }
  else if attr.Key = HTTPURLKey then { v with url := attr.Value.AsString }
  else if attr.Key = HTTPStatusCodeKey then { v with status := attr.Value.AsInt32 }
  else v

/-- The local variables of the attribute loop of the dependency branch; `url` is the
pointer `*url.URL` that shadows the package name. -/
structure DependencyVars where
  method : String
  url : Option URL
  status : Int
  deriving DecidableEq, Repr

/-- One iteration of the attribute loop of the dependency branch (the `switch`). -/
def dependencyAttr (lib : Lib) (v : DependencyVars) (attr : KeyValue) :
    Except Panic DependencyVars :=
  if attr.Key = HTTPMethodKey then pure { v with method := attr.Value.AsString }
  else if attr.Key = HTTPURLKey then do
    let u ← URL.Parse lib v.url attr.Value.AsString
    pure { v with url := u }
  else if attr.Key = HTTPStatusCodeKey then pure { v with status := attr.Value.AsInt32 }
  else pure v

/-- The loop over `span.Attributes` of the dependency branch. -/
def dependencyLoop (lib : Lib) : DependencyVars → List KeyValue → Except Panic DependencyVars
  | v, [] => pure v
  | v, attr :: rest => do
    let v' ← dependencyAttr lib v attr
    dependencyLoop lib v' rest

/-- Lines 87 to 100 of `protocol.go`: the envelope before the branch on the span kind. -/
def envelopeShell (lib : Lib) (span : Span) (process : Process) : Envelope :=
  let envelope : Envelope :=
    { Ver := 1
      Name := ""
      Time := lib.timeFormat span.StartTime "2006-01-02T15:04:05.000000Z"
      SampleRate := 0
      Seq := ""
      IKey := ""
      Tags := [("ai.cloud.role", process.ServiceName), ("ai.cloud.roleInstance", lib.hostname),
        ("ai.device.id", lib.hostname), ("ai.device.osVersion", platform)]
      Data := none }
  let envelope :=
    { envelope with Tags := envelope.Tags.set "ai.operation.id" span.SpanContext.TraceID.String }
  if span.ParentSpanID.IsValid then
    { envelope with Tags := envelope.Tags.set "ai.operation.parentId" span.ParentSpanID.String }
  else envelope

/-- Lines 101 to 104: the map `props` after the loop over the attributes. -/
def attributeProps (attrs : List KeyValue) : StrMap :=
  attrs.foldl (fun m a => m.set a.Key a.Value.AsString) []

/-- The variables `envelope`, `data` and `props` of the request branch. -/
structure RequestState where
  envelope : Envelope
  data : RequestData
  props : StrMap
  deriving DecidableEq, Repr

/-- Lines 135 to 145: the name of the request, the operation name tag and the property
`request.name`. Both inner branches format `route`. -/
def setRequestName (v : RequestVars) (s : RequestState) : RequestState :=
  if v.method ≠ "" then
    let s := { s with data := { s.data with Name := v.method } }
    let s :=
      if v.route ≠ "" then
        let s := { s with data := { s.data with Name := s.data.Name ++ " " ++ v.route } }
        { s with
          envelope :=
            { s.envelope with Tags := s.envelope.Tags.set "ai.operation.name" s.data.Name } }
      else if v.path ≠ "" then
        let s := { s with data := { s.data with Name := s.data.Name ++ " " ++ v.route } }
        { s with
          envelope :=
            { s.envelope with Tags := s.envelope.Tags.set "ai.operation.name" s.data.Name } }
      else s
    { s with props := s.props.set "request.name" s.data.Name }
  else s

/-- Lines 146 to 148: the variable `url` after the synthesis from scheme, host and path. -/
def requestURL (v : RequestVars) : String :=
  if v.url = "" ∧ v.scheme ≠ "" ∧ v.host ≠ "" ∧ v.path ≠ "" then
    v.scheme ++ "://" ++ v.host ++ "/" ++ trimLeft v.path "/"
  else v.url

/-- Lines 149 to 152: the URL of the request and the property `request.url`. -/
def setRequestURL (url : String) (s : RequestState) : RequestState :=
  if url ≠ "" then
    { s with data := { s.data with URL := url }, props := s.props.set "request.url" url }
  else s

/-- Lines 153 to 156: the HTTP status, when one was read, sets the response code and the
success flag. -/
def setRequestStatus (status : Int) (s : RequestState) : RequestState :=
  if status ≠ -1 then
    { s with
      data :=
        { s.data with
          ResponseCode := sprintfD status
          Success := decide (200 ≤ status ∧ status < 400) } }
  else s

/-- Lines 157 to 159: the properties are attached when the map is not empty. -/
def attachRequestProps (s : RequestState) : RequestState :=
  if s.props.length > 0 then { s with data := { s.data with Properties := some s.props } }
  else s

/-- Lines 189 to 200: what a non-nil `url` sets on the dependency data. -/
def setDependencyHTTP (lib : Lib) (v : DependencyVars) (data : RemoteDependencyData) :
    RemoteDependencyData :=
  match v.url with
  | none => data
  | some url =>
    let data := { data with Type_ := "HTTP", Data := lib.urlString url, Target := url.Host }
    let data :=
      if v.method ≠ "" then
        { data with Name := v.method ++ " " ++ url.Scheme ++ "://" ++ url.Host ++ url.Path }
      else data
    if v.status ≠ -1 then
      { data with
        ResultCode := sprintfD v.status
        Success := decide (200 ≤ v.status ∧ v.status < 400) }
    else data

/-- Lines 202 to 204: the properties are attached when the map is not empty. -/
def attachDependencyProps (props : StrMap) (data : RemoteDependencyData) :
    RemoteDependencyData :=
  if props.length > 0 then { data with Properties := some props } else data

/-- Source: `newEnvelopeFromSpan` in `protocol.go`. -/
def newEnvelopeFromSpan (lib : Lib) (span : Span) (process : Process) :
    Except Panic Envelope :=
  let envelope := envelopeShell lib span process
  let props := attributeProps span.Attributes
  if span.SpanKind = SpanKind.consumer ∨ span.SpanKind = SpanKind.server then
    let envelope := { envelope with Name := "Microsoft.Applicationappinsights.Request" }
    let data : RequestData :=
      { Ver := 2
        ID := span.SpanContext.SpanID.String
        Source := ""
        Name := ""
        Duration := fmtDuration (lib.timeSub span.EndTime span.StartTime)
        ResponseCode := sprintfD span.StatusCode
        Success := decide (span.StatusCode = codesOk)
        URL := ""
        Properties := none
        Measurements := none }
    let v := span.Attributes.foldl requestAttr ⟨"", "", "", "", "", "", -1⟩
    let s := setRequestName v ⟨envelope, data, props⟩
    let s := setRequestURL (requestURL v) s
    let s := setRequestStatus v.status s
    let s := attachRequestProps s
    pure { s.envelope with Data := some ⟨"RequestData", BaseData.request s.data⟩ }
  else do
    let envelope := { envelope with Name := remoteDependency }
    let data : RemoteDependencyData :=
      { Ver := 2
        Name := span.Name
        ID := span.SpanContext.SpanID.String
        ResultCode := sprintfD span.StatusCode
        Duration := fmtDuration (lib.timeSub span.EndTime span.StartTime)
        Type_ := "InProc"
        Success := decide (span.StatusCode = codesOk)
        Data := ""
        Target := ""
        Properties := none
        Measurements := none }
    let data ←
      if span.SpanKind = SpanKind.client ∨ span.SpanKind = SpanKind.producer then do
        let v ← dependencyLoop lib ⟨"", none, -1⟩ span.Attributes
        pure (setDependencyHTTP lib v data)
      else pure data
    let data := attachDependencyProps props data
    pure { envelope with Data := some ⟨"RemoteDependencyData", BaseData.remoteDependency data⟩ }

/-! ## Transmission (`transmit.go`) -/

/-- The two sentinel errors of `transmit.go`. They have the same text and are told apart
by identity. -/
inductive Sentinel
  | errTransmitRetryable
  | errTransmitFailed
  deriving DecidableEq, Repr

/-- An error built by `fmt.Errorf` with the verb `%w` on a sentinel. -/
structure WrappedError where
  wraps : Sentinel
  text : String
  deriving DecidableEq, Repr

/-- Go `errors.Is(err, target)` for a sentinel target; false on a nil error. -/
def errorsIs (err : Option WrappedError) (target : Sentinel) : Bool :=
  match err with
  | none => false
  | some w => decide (w.wraps = target)

/-- Go `time.RFC1123`. -/
def RFC1123 : String := "Mon, 02 Jan 2006 15:04:05 MST"

/-- The end of `transmit`, after the body was decoded into `result`: the error by
status code. -/
def statusError (result : Option transmitResult) (StatusCode : Int) :
    Option transmitResult × Option WrappedError :=
  if StatusCode = 206 ∨ StatusCode = 429 ∨ StatusCode = 500 ∨ StatusCode = 503 then
    (result,
      some ⟨Sentinel.errTransmitRetryable, "appinsights: StatusCode=" ++ sprintfD StatusCode⟩)
  else
    (result, some ⟨Sentinel.errTransmitFailed, "appinsights: status=" ++ sprintfD StatusCode⟩)

/-- Source: `transmit` in `transmit.go`. The client is the default client (the only
caller passes nil), whose `Do` is `lib.clientDo`. The first component of the result is
the pointer `result`, nil after a body `null` was decoded into it. -/
def transmit (lib : Lib) (endpoint : String) (envelopes : List Envelope) :
    Option transmitResult × Option WrappedError :=
  let result : transmitResult := ⟨0, 0, [], none⟩
  match lib.jsonMarshal envelopes with
  | Except.error err =>
    (some result,
      some ⟨Sentinel.errTransmitFailed, "appinsights: failed to marshall envelopes: " ++ err⟩)
  | Except.ok buf =>
    match lib.newRequest "POST" endpoint buf with
    | Except.error err =>
      (some result,
        some ⟨Sentinel.errTransmitFailed, "appinsights: failed to create new request: " ++ err⟩)
    | Except.ok req =>
      let req :=
        { req with
          Header :=
            headerSet (headerSet req.Header "Content-Type" "application/json")
              "Accept" "application/json" }
      match lib.clientDo req with
      | Except.error err =>
        (some result,
          some ⟨Sentinel.errTransmitRetryable, "appinsights: failed to send request: " ++ err⟩)
      | Except.ok res =>
        let result :=
          match headerGet res.Header "Retry-After" with
          | some [r] =>
            match lib.timeParse RFC1123 r with
            | some t => { result with retryAfter := some t }
            | none => result
          | _ => result
        if res.StatusCode = 200 then
          (some { result with Received := envelopes.length, Accepted := envelopes.length }, none)
        else
          match lib.jsonDecode res.Body with
          | Decoded.invalid msg received accepted errors =>
            (some { result with Received := received, Accepted := accepted, Errors := errors },
              some ⟨Sentinel.errTransmitRetryable,
                "appinsights: failed to decode response: " ++ msg⟩)
          | Decoded.null => statusError none res.StatusCode
          | Decoded.object received accepted errors =>
            statusError
              (some { result with Received := received, Accepted := accepted, Errors := errors })
              res.StatusCode

/-- Source: `transmitFromStorage` in `transmit.go`: returns nil. -/
def transmitFromStorage : Option WrappedError := none

/-! ## The exporter (`exporter.go`) -/

/-- Source: `Exporter` in `exporter.go` (without the tracer options, which `ExportSpans`
does not read). -/
structure Exporter where
  process : Process
  instrumentationKey : String
  ingestionEndpoint : String
  storage : List Envelope
  deriving DecidableEq, Repr

/-- The first loop of `ExportSpans`: the envelope of each span, with the key assigned. -/
def mapSpans (lib : Lib) (e : Exporter) : List Span → Except Panic (List Envelope)
  | [] => pure []
  | span :: rest => do
    let envelope ← newEnvelopeFromSpan lib span e.process
    let envelope := { envelope with IKey := e.instrumentationKey }
    let envelopes ← mapSpans lib e rest
    pure (envelope :: envelopes)

/-- The indexing `envelopes[i]` with an `int` index. -/
def indexEnvelope (envelopes : List Envelope) (i : Int) : Except Panic Envelope :=
  if i < 0 then throw Panic.indexOutOfRange
  else
    match envelopes[i.toNat]? with
    | some envelope => pure envelope
    | none => throw Panic.indexOutOfRange

/-- The loop over `res.Errors` of `ExportSpans`: appends `envelopes[errored.Index]` to
the storage for each element. -/
def storeErrored (envelopes : List Envelope) :
    List Envelope → List (Option transmitError) → Except Panic (List Envelope)
  | storage, [] => pure storage
  | _, none :: _ => throw Panic.nilDereference
  | storage, some errored :: rest => do
    let envelope ← indexEnvelope envelopes errored.Index
    storeErrored envelopes (storage ++ [envelope]) rest

/-- Source: `Exporter.ExportSpans` in `exporter.go`: the exporter after the call and the
returned error, or the panic that ends the call. Logging is left out. -/
def Exporter.ExportSpans (lib : Lib) (e : Exporter) (spans : List Span) :
    Except Panic (Exporter × Option WrappedError) := do
  let envelopes ← mapSpans lib e spans
  let (res, err) := transmit lib e.ingestionEndpoint envelopes
  let e ←
    if errorsIs err Sentinel.errTransmitRetryable then
      match res with
      | none => throw Panic.nilDereference
      | some r => do
        let storage ← storeErrored envelopes e.storage r.Errors
        pure { e with storage := storage }
    else pure e
  let err := if err = none then transmitFromStorage else err
  pure (e, err)

/-! ## The connection string (`appinsights.go`) -/

/-- Go `unicode.ToLower` on one rune: the ASCII table below 128, and `unicodeToLower`,
the tables of the package `unicode`, above. -/
def toLowerRune (unicodeToLower : Char → Char) (c : Char) : Char :=
  if c.toNat < 128 then c.toLower else unicodeToLower c

/-- Go `strings.ToLower`: every rune mapped by `unicode.ToLower`. -/
def stringsToLower (unicodeToLower : Char → Char) (s : String) : String :=
  String.mk (s.toList.map (toLowerRune unicodeToLower))

/-- Go `strings.Split(s, sep)` for a separator of one character. -/
def stringsSplit (s : String) (sep : Char) : List String :=
  (s.toList.splitOn sep).map String.mk

/-- Go `strings.Join(elems, sep)`. -/
def stringsJoin (elems : List String) (sep : String) : String :=
  String.mk (sep.toList.intercalate (elems.map String.toList))

/-- Go `strings.TrimRight(s, cutset)`. -/
def stringsTrimRight (s : String) (cutset : String) : String :=
  String.mk (s.toList.rdropWhile (fun c => cutset.toList.contains c))

/-- The variables `endpoint`, `ikey`, `suffix` and `location` of `parseConnectionString`. -/
structure ConnectionVars where
  endpoint : String
  ikey : String
  suffix : String
  location : String
  deriving DecidableEq, Repr

/-- One iteration of the loop over the pairs of `parseConnectionString`. -/
def connectionPair (vars : ConnectionVars) (pair : String) : ConnectionVars :=
  let v := stringsSplit pair '='
  if v.length ≥ 2 then
    let key := v.headD ""
    if key = "ingestionendpoint" then { vars with endpoint := stringsJoin (v.drop 1) "=" }
    else if key = "instrumentationkey" then { vars with ikey := stringsJoin (v.drop 1) "=" }
    else if key = "endpointsuffix" then { vars with suffix := stringsJoin (v.drop 1) "=" }
    else if key = "location" then { vars with location := stringsJoin (v.drop 1) "=" }
    else vars
  else vars

/-- Source: `parseConnectionString` in `appinsights.go`: the endpoint, the key and the
error, which is never set. -/
def parseConnectionString (unicodeToLower : Char → Char) (cs : String) :
    String × String × Option String :=
  let pairs := stringsSplit (stringsToLower unicodeToLower cs) ';'
  let vars := pairs.foldl connectionPair ⟨"", "", "", ""⟩
  let endpoint :=
    if vars.endpoint = "" then
      if vars.suffix ≠ "" then
        let endpointSuffix := vars.suffix
        let locationPrefix := if vars.location ≠ "" then vars.location else ""
        "https://" ++ locationPrefix ++ "dc." ++ endpointSuffix
      else "https://dc.services.visualstudio.com"
    else vars.endpoint
  (stringsTrimRight endpoint " /" ++ "/v2/track", vars.ikey, none)

/-! ## Reference renderings and fixtures -/

/-- The text of `n` in exactly `k` decimal digits (the lowest `k` digits of `n`). -/
def fixedDigits : Nat → Nat → List Char
  | 0, _ => []
  | k + 1, n => fixedDigits k (n / 10) ++ [Nat.digitChar (n % 10)]

/-- What `ResolveReference` returns on a nil receiver for a reference with a scheme. -/
def resolvedAlone (lib : Lib) (ref : URL) : URL :=
  URL.setPath lib.unescapePath lib.escapePath ref (lib.resolvePath (lib.escapedPath ref) "")

/-- A library for the examples: `parse` stands for `url.Parse`, `exchange` for the
round trip of the default client and `decoded` for the decoding of the response body.
Paths are taken to be their own escaped form, and reference resolution on a non-nil
receiver returns the reference. -/
def exampleLib (parse : String → Option URL) (exchange : Except String Response)
    (decoded : Decoded) : Lib where
  hostname := "host-1"
  timeFormat := fun _ _ => "1970-01-01T00:00:00.000000Z"
  timeSub := fun t u => t.unixNano - u.unixNano
  timeParse := fun _ _ => none
  urlParse := parse
  escapedPath := fun u => u.Path
  resolvePath := fun base _ => base
  unescapePath := fun p => some p
  escapePath := fun p => p
  resolveReference := fun _ ref => ref
  urlString := fun u => u.Scheme ++ "://" ++ u.Host ++ u.Path
  jsonMarshal := fun _ => Except.ok "[]"
  newRequest := fun method url body => Except.ok ⟨method, url, [], body⟩
  clientDo := fun _ => exchange
  jsonDecode := fun _ => decoded

/-- A library whose network answers with the given status code and decoded body. -/
def answerLib (StatusCode : Int) (decoded : Decoded) : Lib :=
  exampleLib (fun _ => none) (Except.ok ⟨StatusCode, [], ""⟩) decoded

/-- The URL `https://example.com:8080/api/items`, parsed. -/
def exampleURL : URL :=
  { Scheme := "https", Opaque := "", User := none, Host := "example.com:8080",
    Path := "/api/items", RawPath := "", ForceQuery := false, RawQuery := "", Fragment := "",
    RawFragment := "" }

/-- A parser that knows `https://example.com:8080/api/items` and rejects the rest. -/
def exampleParse (s : String) : Option URL :=
  if s = "https://example.com:8080/api/items" then some exampleURL else none

/-- A library for the mapping examples. -/
def mapLib : Lib := exampleLib exampleParse (Except.error "no network") Decoded.null

def exampleProcess : Process := ⟨"checkout", []⟩

/-- A span of the given kind, status code and attributes that lasts 1.5 ms. -/
def exampleSpan (kind : SpanKind) (StatusCode : Nat) (attrs : List KeyValue) : Span :=
  { SpanContext := ⟨⟨[0, 1, 2, 3, 4, 5, 6, 7, 8, 9, 10, 11, 12, 13, 14, 15]⟩,
      ⟨[0, 0, 0, 0, 0, 0, 171, 205]⟩⟩
    ParentSpanID := ⟨[0, 0, 0, 0, 0, 0, 0, 0]⟩
    SpanKind := kind
    Name := "op"
    StartTime := ⟨1000000000, none⟩
    EndTime := ⟨1001500000, none⟩
    Attributes := attrs
    StatusCode := StatusCode }

/-- The attribute `http.url` = `https://example.com:8080/api/items`. -/
def exampleURLAttr : KeyValue := ⟨HTTPURLKey, StringValue "https://example.com:8080/api/items"⟩

/-- A client span with the error status and the attributes `http.url` and
`http.status_code` = 200. -/
def clientSpanWithURL : Span :=
  exampleSpan SpanKind.client 1 [exampleURLAttr, ⟨HTTPStatusCodeKey, IntValue 200⟩]

/-- A client span with the error status and the one attribute `http.status_code` = 200. -/
def clientSpanWithoutURL : Span :=
  exampleSpan SpanKind.client 1 [⟨HTTPStatusCodeKey, IntValue 200⟩]

/-- The request that `transmit` sends, built from the one `http.NewRequestWithContext`
returned: the two headers set. -/
def withJSONHeaders (req : Request) : Request :=
  { req with
    Header :=
      headerSet (headerSet req.Header "Content-Type" "application/json")
        "Accept" "application/json" }

/-- The envelopes at the indices of the per-item errors, in the order of the errors. -/
def erroredEnvelopes (envelopes : List Envelope) (es : List transmitError) : List Envelope :=
  es.filterMap (fun x => envelopes[x.Index.toNat]?)

/-- An envelope for the transmission examples. -/
def exampleEnvelope : Envelope :=
  ⟨1, "Microsoft.Applicationappinsights.Request", "1970-01-01T00:00:00.000000Z", 0, "", "ikey-1",
    [], none⟩

/-- An exporter with the given retry buffer. -/
def exampleExporter (storage : List Envelope) : Exporter :=
  ⟨exampleProcess, "ikey-1", "https://dc.example/v2/track", storage⟩

/-- A batch of two server spans. -/
def exampleBatch : List Span :=
  [exampleSpan SpanKind.server 0 [], exampleSpan SpanKind.consumer 0 []]

/-- The answer 206 with a per-item error for index 1 and one for index 0. -/
def partialAnswer : Lib :=
  answerLib 206 (Decoded.object 2 0 [some ⟨1, 500, "busy"⟩, some ⟨0, 503, "later"⟩])

/-- The answer 206 with a per-item error whose index is outside the batch. -/
def strayIndexAnswer : Lib :=
  answerLib 206 (Decoded.object 2 1 [some ⟨5, 500, "busy"⟩])

/-- The envelopes of `exampleBatch` under `exampleExporter`. -/
def exampleEnvelopes : List Envelope :=
  match mapSpans partialAnswer (exampleExporter []) exampleBatch with
  | Except.ok envelopes => envelopes
  | Except.error _ => []

/-- The per-item errors of `partialAnswer`. -/
def partialErrors : List transmitError := [⟨1, 500, "busy"⟩, ⟨0, 503, "later"⟩]

/-- The value of the last attribute with the given key, `dflt` when there is none. -/
def lastString (key : String) (attrs : List KeyValue) (dflt : String) : String :=
  match attrs.reverse.find? (fun a => decide (a.Key = key)) with
  | some a => a.Value.AsString
  | none => dflt

/-- The string a span carries under an attribute key: the value of the last attribute
with that key, empty when there is none. -/
def attrString (key : String) (attrs : List KeyValue) : String := lastString key attrs ""

/-- A server span with `http.method` = `GET` and `http.target` = `/items`, no route. -/
def serverSpanWithPath : Span :=
  exampleSpan SpanKind.server 0
    [⟨HTTPMethodKey, StringValue "GET"⟩, ⟨HTTPTargetKey, StringValue "/items"⟩]

/-- A server span with method, route, scheme, host and target, no `http.url`. -/
def serverSpanWithRoute : Span :=
  exampleSpan SpanKind.server 0
    [⟨HTTPMethodKey, StringValue "GET"⟩, ⟨HTTPRouteKey, StringValue "/items/:id"⟩,
      ⟨HTTPSchemeKey, StringValue "https"⟩, ⟨HTTPHostKey, StringValue "shop.example"⟩,
      ⟨HTTPTargetKey, StringValue "//items/7"⟩]

/-- The reference `example.com/x`, parsed: a path and no scheme. -/
def relativeURL : URL :=
  { Scheme := "", Opaque := "", User := none, Host := "", Path := "example.com/x", RawPath := "",
    ForceQuery := false, RawQuery := "", Fragment := "", RawFragment := "" }

/-- A parser that knows `example.com/x` and rejects the rest. -/
def relativeParse (s : String) : Option URL :=
  if s = "example.com/x" then some relativeURL else none

/-- A client span whose `http.url` is `example.com/x`. -/
def clientSpanRelativeURL : Span :=
  exampleSpan SpanKind.client 0 [⟨HTTPURLKey, StringValue "example.com/x"⟩]

/-- What follows `key=` in a pair that starts with it. -/
def pairValue (key : String) (pair : String) : Option String :=
  if pair.toList.take (key.length + 1) = (key ++ "=").toList then
    some (String.mk (pair.toList.drop (key.length + 1)))
  else none

/-- The value of the last pair that starts with `key=`, `dflt` when there is none. -/
def lastPairValue (key : String) (pairs : List String) (dflt : String) : String :=
  match pairs.reverse.find? (fun p => (pairValue key p).isSome) with
  | some p => (pairValue key p).getD dflt
  | none => dflt

/-- The value of a key in a connection string: what follows `key=` in the last of the
pairs between `;` that starts with it, empty when there is none. -/
def connectionValue (key : String) (cs : String) : String :=
  lastPairValue key (stringsSplit cs ';') ""

/-- The base of the endpoint as the resolution order gives it: the ingestion endpoint
when there is one, else `https://` + location + `dc.` + suffix when there is a suffix,
else the public host. -/
def resolvedBase (cs : String) : String :=
  if connectionValue "ingestionendpoint" cs ≠ "" then connectionValue "ingestionendpoint" cs
  else if connectionValue "endpointsuffix" cs ≠ "" then
    "https://" ++ connectionValue "location" cs ++ "dc." ++ connectionValue "endpointsuffix" cs
  else "https://dc.services.visualstudio.com"

/-- A server span whose `http.status_code` holds 2^32 + 200. -/
def serverSpanWideStatus : Span :=
  exampleSpan SpanKind.server 0 [⟨HTTPStatusCodeKey, IntValue 4294967496⟩]

/-- A client span with an `http.url` whose `http.status_code` holds 2^32 + 200. -/
def clientSpanWideStatus : Span :=
  exampleSpan SpanKind.client 0 [exampleURLAttr, ⟨HTTPStatusCodeKey, IntValue 4294967496⟩]

/-- The text that `echoLib` writes for one envelope: the key, the base type and the name
of the payload. -/
def describeEnvelope (envelope : Envelope) : String :=
  match envelope.Data with
  | some ⟨baseType, BaseData.request d⟩ =>
    "[" ++ envelope.IKey ++ " " ++ baseType ++ " " ++ d.Name ++ "]"
  | some ⟨baseType, BaseData.remoteDependency d⟩ =>
    "[" ++ envelope.IKey ++ " " ++ baseType ++ " " ++ d.Name ++ "]"
  | none => "[]"

/-- A library that makes the batch given to `transmit` visible: the marshalled body lists
the envelopes in their order, and the network fails with the body it was sent as the
text of the error. -/
def echoLib : Lib :=
  { exampleLib exampleParse (Except.error "no network") Decoded.null with
    jsonMarshal := fun envelopes =>
      Except.ok (String.join (envelopes.map describeEnvelope))
    clientDo := fun req => Except.error req.Body }

/-- A batch of two different spans: a server span with a route and a client span. -/
def mixedBatch : List Span := [serverSpanWithRoute, clientSpanWithURL]

/-! ## Lemmas -/

theorem toDigitsCore_acc (f n : Nat) (ds : List Char) :
    Nat.toDigitsCore 10 f n ds = Nat.toDigitsCore 10 f n [] ++ ds := by
  induction f generalizing n ds with
  | zero => simp [Nat.toDigitsCore]
  | succ f ih =>
    simp only [Nat.toDigitsCore]
    split
    · simp
    · rw [ih (n / 10) (Nat.digitChar (n % 10) :: ds), ih (n / 10) [Nat.digitChar (n % 10)]]
      simp

theorem fixedDigits_zero (k : Nat) : fixedDigits k 0 = List.replicate k '0' := by
  induction k with
  | zero => rfl
  | succ k ihk =>
    simp only [fixedDigits, Nat.zero_div, Nat.zero_mod, ihk]
    rw [List.replicate_succ']
    rfl

theorem toDigitsCore_fixed (k f n : Nat) (hf : n < f) (hn : n < 10 ^ (k + 1)) :
    List.replicate (k + 1 - (Nat.toDigitsCore 10 f n []).length) '0'
        ++ Nat.toDigitsCore 10 f n []
      = fixedDigits (k + 1) n := by
  induction k generalizing f n with
  | zero =>
    cases f with
    | zero => omega
    | succ f =>
      have h0 : n / 10 = 0 := by omega
      simp [Nat.toDigitsCore, fixedDigits, h0]
  | succ k ih =>
    cases f with
    | zero => omega
    | succ f =>
      rw [fixedDigits]
      simp only [Nat.toDigitsCore]
      by_cases h0 : n / 10 = 0
      · simp only [h0, if_true, List.length_singleton, fixedDigits_zero]
        simp
      · simp only [h0, if_false]
        rw [toDigitsCore_acc]
        have hlen : n / 10 < f := by omega
        have hpow : n / 10 < 10 ^ (k + 1) := by
          rw [pow_succ] at hn; omega
        have := ih f (n / 10) hlen hpow
        rw [← this]
        simp only [List.length_append, List.length_singleton]
        have h1 : k + 1 + 1 - ((Nat.toDigitsCore 10 f (n / 10) []).length + 1)
            = k + 1 - (Nat.toDigitsCore 10 f (n / 10) []).length := by omega
        rw [h1]
        simp

theorem repr_fixed (k n : Nat) (hn : n < 10 ^ (k + 1)) :
    String.mk (List.replicate (k + 1 - (Nat.repr n).length) '0') ++ Nat.repr n
      = String.mk (fixedDigits (k + 1) n) := by
  have h := toDigitsCore_fixed k (n + 1) n (Nat.lt_succ_self n) hn
  simp only [Nat.repr, Nat.toDigits, List.asString, String.length]
  rw [← h]
  rfl

theorem durationRound_nanosecond (t : Int) (h0 : 0 ≤ t) (h1 : t < 2 ^ 63) :
    durationRound t Nanosecond = t := by
  have hl : lessThanHalf 0 1 = true := by decide
  have hw : wrap64 t = t := by
    unfold wrap64
    omega
  simp [durationRound, Nanosecond, Int.tmod_one, hl, hw, not_lt.mpr h0]

theorem sprintfD_natCast (n : Nat) : sprintfD (n : Int) = Nat.repr n := by
  simp [sprintfD]

theorem sprintfD0_natCast (k n : Nat) (hn : n < 10 ^ (k + 1)) :
    sprintfD0 (k + 1) (n : Int) = String.mk (fixedDigits (k + 1) n) := by
  have h := repr_fixed k n hn
  simpa [sprintfD0] using h

theorem Hour_eq : Hour = 3600000000000 := by decide

theorem Minute_eq : Minute = 60000000000 := by decide

theorem Second_eq : Second = 1000000000 := by decide

theorem Microsecond_eq : Microsecond = 1000 := by decide

theorem tdiv_natCast (a b : Nat) : Int.tdiv (a : Int) (b : Int) = ((a / b : Nat) : Int) := by
  rw [Int.tdiv_eq_ediv (Int.ofNat_nonneg a) (Int.ofNat_nonneg b)]
  simp

theorem tmod_natCast (a b : Nat) : Int.tmod (a : Int) (b : Int) = ((a % b : Nat) : Int) := by
  rw [Int.tmod_eq_emod (Int.ofNat_nonneg a) (Int.ofNat_nonneg b)]
  simp

/-- On a non-negative duration `fmtDuration` renders five numbers computed on naturals. -/
theorem fmtDuration_natCast (n : Nat) (h1 : (n : Int) < 2 ^ 63) :
    fmtDuration (n : Int) =
      sprintfD ((n / 3600000000000 / 24 : Nat) : Int) ++ "."
        ++ sprintfD0 2 ((n / 3600000000000 % 24 : Nat) : Int) ++ ":"
        ++ sprintfD0 2 ((n % 3600000000000 / 60000000000 : Nat) : Int) ++ ":"
        ++ sprintfD0 2 ((n % 60000000000 / 1000000000 : Nat) : Int) ++ "."
        ++ sprintfD0 6 ((n % 1000000000 / 1000 : Nat) : Int) := by
  have hr := durationRound_nanosecond (n : Int) (Int.ofNat_nonneg n) h1
  have e1 : Int.tdiv (n : Int) 3600000000000 = ((n / 3600000000000 : Nat) : Int) :=
    tdiv_natCast n 3600000000000
  have r1 : (n : Int) - ((n / 3600000000000 : Nat) : Int) * 3600000000000
      = ((n % 3600000000000 : Nat) : Int) := by omega
  have e2 : Int.tdiv ((n % 3600000000000 : Nat) : Int) 60000000000
      = ((n % 3600000000000 / 60000000000 : Nat) : Int) := tdiv_natCast _ 60000000000
  have r2 : ((n % 3600000000000 : Nat) : Int)
      - ((n % 3600000000000 / 60000000000 : Nat) : Int) * 60000000000
      = ((n % 60000000000 : Nat) : Int) := by omega
  have e3 : Int.tdiv ((n % 60000000000 : Nat) : Int) 1000000000
      = ((n % 60000000000 / 1000000000 : Nat) : Int) := tdiv_natCast _ 1000000000
  have r3 : ((n % 60000000000 : Nat) : Int)
      - ((n % 60000000000 / 1000000000 : Nat) : Int) * 1000000000
      = ((n % 1000000000 : Nat) : Int) := by omega
  have e4 : Int.tdiv ((n % 1000000000 : Nat) : Int) 1000
      = ((n % 1000000000 / 1000 : Nat) : Int) := tdiv_natCast _ 1000
  have e5 : Int.tdiv ((n / 3600000000000 : Nat) : Int) 24
      = ((n / 3600000000000 / 24 : Nat) : Int) := tdiv_natCast _ 24
  have e6 : Int.tmod ((n / 3600000000000 : Nat) : Int) 24
      = ((n / 3600000000000 % 24 : Nat) : Int) := tmod_natCast _ 24
  simp only [fmtDuration, hr, Hour_eq, Minute_eq, Second_eq, Microsecond_eq, e1, r1, e2, r2, e3,
    r3, e4, e5, e6]

/-! ### The steps of the request branch and what they leave alone -/

@[simp] theorem setRequestName_envelope_Name (v : RequestVars) (s : RequestState) :
    (setRequestName v s).envelope.Name = s.envelope.Name := by
  unfold setRequestName
  split_ifs <;> rfl

@[simp] theorem setRequestName_data_ID (v : RequestVars) (s : RequestState) :
    (setRequestName v s).data.ID = s.data.ID := by
  unfold setRequestName
  split_ifs <;> rfl

@[simp] theorem setRequestURL_envelope (url : String) (s : RequestState) :
    (setRequestURL url s).envelope = s.envelope := by
  unfold setRequestURL
  split_ifs <;> rfl

@[simp] theorem setRequestURL_data_ID (url : String) (s : RequestState) :
    (setRequestURL url s).data.ID = s.data.ID := by
  unfold setRequestURL
  split_ifs <;> rfl

@[simp] theorem setRequestStatus_envelope (status : Int) (s : RequestState) :
    (setRequestStatus status s).envelope = s.envelope := by
  unfold setRequestStatus
  split_ifs <;> rfl

@[simp] theorem setRequestStatus_data_ID (status : Int) (s : RequestState) :
    (setRequestStatus status s).data.ID = s.data.ID := by
  unfold setRequestStatus
  split_ifs <;> rfl

@[simp] theorem attachRequestProps_envelope (s : RequestState) :
    (attachRequestProps s).envelope = s.envelope := by
  unfold attachRequestProps
  split_ifs <;> rfl

@[simp] theorem attachRequestProps_data_ID (s : RequestState) :
    (attachRequestProps s).data.ID = s.data.ID := by
  unfold attachRequestProps
  split_ifs <;> rfl

@[simp] theorem attachRequestProps_data_ResponseCode (s : RequestState) :
    (attachRequestProps s).data.ResponseCode = s.data.ResponseCode := by
  unfold attachRequestProps
  split_ifs <;> rfl

@[simp] theorem attachRequestProps_data_Success (s : RequestState) :
    (attachRequestProps s).data.Success = s.data.Success := by
  unfold attachRequestProps
  split_ifs <;> rfl

theorem setRequestStatus_of_ne (status : Int) (s : RequestState) (h : status ≠ -1) :
    (setRequestStatus status s).data.ResponseCode = sprintfD status ∧
      (setRequestStatus status s).data.Success = decide (200 ≤ status ∧ status < 400) := by
  unfold setRequestStatus
  rw [if_pos h]
  exact ⟨rfl, rfl⟩

/-! ### The attribute loop of the request branch -/

theorem requestAttr_status_of_key (v : RequestVars) (a : KeyValue)
    (h : a.Key = HTTPStatusCodeKey) : (requestAttr v a).status = a.Value.AsInt32 := by
  simp [requestAttr, h, HTTPStatusCodeKey, HTTPMethodKey, HTTPRouteKey, HTTPTargetKey,
    HTTPHostKey, HTTPSchemeKey, HTTPURLKey]

theorem requestAttr_status_of_not_key (v : RequestVars) (a : KeyValue)
    (h : a.Key ≠ HTTPStatusCodeKey) : (requestAttr v a).status = v.status := by
  unfold requestAttr
  split_ifs <;> rfl

/-- The loop keeps a status that every status attribute agrees with. -/
theorem requestLoop_status_keep (attrs : List KeyValue) (v : RequestVars) (s : Int)
    (hv : v.status = s)
    (hall : ∀ a ∈ attrs, a.Key = HTTPStatusCodeKey → a.Value.AsInt32 = s) :
    (attrs.foldl requestAttr v).status = s := by
  induction attrs generalizing v with
  | nil => simpa using hv
  | cons a rest ih =>
    rw [List.foldl_cons]
    apply ih
    · by_cases hk : a.Key = HTTPStatusCodeKey
      · rw [requestAttr_status_of_key v a hk]
        exact hall a (List.mem_cons_self a rest) hk
      · rw [requestAttr_status_of_not_key v a hk]
        exact hv
    · intro b hb
      exact hall b (List.mem_cons_of_mem a hb)

/-- The loop ends with the value of the status attributes when there is one. -/
theorem requestLoop_status (attrs : List KeyValue) (v : RequestVars) (s : Int)
    (hex : ∃ a ∈ attrs, a.Key = HTTPStatusCodeKey)
    (hall : ∀ a ∈ attrs, a.Key = HTTPStatusCodeKey → a.Value.AsInt32 = s) :
    (attrs.foldl requestAttr v).status = s := by
  induction attrs generalizing v with
  | nil =>
    obtain ⟨a, ha, _⟩ := hex
    cases ha
  | cons a rest ih =>
    rw [List.foldl_cons]
    have hrest : ∀ b ∈ rest, b.Key = HTTPStatusCodeKey → b.Value.AsInt32 = s :=
      fun b hb => hall b (List.mem_cons_of_mem a hb)
    by_cases hk : a.Key = HTTPStatusCodeKey
    · apply requestLoop_status_keep rest _ s _ hrest
      rw [requestAttr_status_of_key v a hk]
      exact hall a (List.mem_cons_self a rest) hk
    · apply ih _ _ hrest
      obtain ⟨b, hb, hbk⟩ := hex
      rcases List.mem_cons.mp hb with rfl | hb'
      · exact absurd hbk hk
      · exact ⟨b, hb', hbk⟩

/-! ### The attribute loop of the dependency branch -/

theorem resolvedAlone_Host (lib : Lib) (ref : URL) : (resolvedAlone lib ref).Host = ref.Host := by
  unfold resolvedAlone URL.setPath
  split <;> rfl

theorem resolvedAlone_Scheme (lib : Lib) (ref : URL) :
    (resolvedAlone lib ref).Scheme = ref.Scheme := by
  unfold resolvedAlone URL.setPath
  split <;> rfl

theorem dependencyAttr_of_not_url (lib : Lib) (v : DependencyVars) (a : KeyValue)
    (h : a.Key ≠ HTTPURLKey) :
    ∃ v', dependencyAttr lib v a = Except.ok v' ∧ v'.url = v.url := by
  unfold dependencyAttr
  split_ifs <;> exact ⟨_, rfl, rfl⟩

theorem dependencyAttr_of_url (lib : Lib) (v : DependencyVars) (a : KeyValue) (ref : URL)
    (h : a.Key = HTTPURLKey) (hv : v.url = none)
    (hparse : lib.urlParse a.Value.AsString = some ref) (hscheme : ref.Scheme ≠ "") :
    dependencyAttr lib v a = Except.ok { v with url := some (resolvedAlone lib ref) } := by
  have hne : HTTPURLKey ≠ HTTPMethodKey := by decide
  simp only [dependencyAttr, h, hne, if_false, if_true, URL.Parse, hparse, hv,
    URL.ResolveReference, hscheme, resolvedAlone]
  rfl

theorem dependencyAttr_status_of_key (lib : Lib) (v v' : DependencyVars) (a : KeyValue)
    (h : a.Key = HTTPStatusCodeKey) (hok : dependencyAttr lib v a = Except.ok v') :
    v'.status = a.Value.AsInt32 := by
  have h1 : HTTPStatusCodeKey ≠ HTTPMethodKey := by decide
  have h2 : HTTPStatusCodeKey ≠ HTTPURLKey := by decide
  simp only [dependencyAttr, h, h1, h2, if_false, if_true] at hok
  cases hok
  rfl

theorem dependencyAttr_status_of_not_key (lib : Lib) (v v' : DependencyVars) (a : KeyValue)
    (h : a.Key ≠ HTTPStatusCodeKey) (hok : dependencyAttr lib v a = Except.ok v') :
    v'.status = v.status := by
  unfold dependencyAttr at hok
  split_ifs at hok
  · cases hok; rfl
  · cases hu : URL.Parse lib v.url a.Value.AsString with
    | error e => simp [hu, bind, Except.bind] at hok
    | ok u =>
      simp only [hu, bind, Except.bind, pure, Except.pure] at hok
      cases hok
      rfl
  · cases hok; rfl

/-- Without an `http.url` attribute the loop ends and leaves `url` as it was. -/
theorem dependencyLoop_url_keep (lib : Lib) (attrs : List KeyValue) (v : DependencyVars)
    (hnone : attrs.filter (fun b => decide (b.Key = HTTPURLKey)) = []) :
    ∃ v', dependencyLoop lib v attrs = Except.ok v' ∧ v'.url = v.url := by
  induction attrs generalizing v with
  | nil => exact ⟨v, rfl, rfl⟩
  | cons a rest ih =>
    have hk : a.Key ≠ HTTPURLKey := by
      intro hk
      simp [List.filter_cons, hk] at hnone
    have hrest : rest.filter (fun b => decide (b.Key = HTTPURLKey)) = [] := by
      simpa [List.filter_cons, hk] using hnone
    obtain ⟨v1, h1, hu1⟩ := dependencyAttr_of_not_url lib v a hk
    obtain ⟨v2, h2, hu2⟩ := ih v1 hrest
    refine ⟨v2, ?_, hu2.trans hu1⟩
    simp only [dependencyLoop, h1, bind, Except.bind]
    exact h2

/-- With one `http.url` attribute, whose value parses to a URL with a scheme, the loop
ends with `url` pointing to that URL, path resolved. -/
theorem dependencyLoop_url_one (lib : Lib) (attrs : List KeyValue) (v : DependencyVars)
    (a : KeyValue) (ref : URL) (hv : v.url = none)
    (hone : attrs.filter (fun b => decide (b.Key = HTTPURLKey)) = [a])
    (hparse : lib.urlParse a.Value.AsString = some ref) (hscheme : ref.Scheme ≠ "") :
    ∃ v', dependencyLoop lib v attrs = Except.ok v' ∧
      v'.url = some (resolvedAlone lib ref) := by
  induction attrs generalizing v with
  | nil => simp at hone
  | cons b rest ih =>
    by_cases hk : b.Key = HTTPURLKey
    · have hb : b = a ∧ rest.filter (fun b => decide (b.Key = HTTPURLKey)) = [] := by
        simpa [List.filter_cons, hk] using hone
      obtain ⟨rfl, hrest⟩ := hb
      have h1 := dependencyAttr_of_url lib v b ref hk hv hparse hscheme
      obtain ⟨v2, h2, hu2⟩ :=
        dependencyLoop_url_keep lib rest { v with url := some (resolvedAlone lib ref) } hrest
      refine ⟨v2, ?_, hu2⟩
      simp only [dependencyLoop, h1, bind, Except.bind]
      exact h2
    · have hrest : rest.filter (fun b => decide (b.Key = HTTPURLKey)) = [a] := by
        simpa [List.filter_cons, hk] using hone
      obtain ⟨v1, h1, hu1⟩ := dependencyAttr_of_not_url lib v b hk
      obtain ⟨v2, h2, hu2⟩ := ih v1 (hu1.trans hv) hrest
      refine ⟨v2, ?_, hu2⟩
      simp only [dependencyLoop, h1, bind, Except.bind]
      exact h2

/-- A loop that ends keeps a status that every status attribute agrees with. -/
theorem dependencyLoop_status_keep (lib : Lib) (attrs : List KeyValue)
    (v v' : DependencyVars) (s : Int) (hok : dependencyLoop lib v attrs = Except.ok v')
    (hv : v.status = s)
    (hall : ∀ a ∈ attrs, a.Key = HTTPStatusCodeKey → a.Value.AsInt32 = s) :
    v'.status = s := by
  induction attrs generalizing v with
  | nil =>
    simp only [dependencyLoop, pure, Except.pure] at hok
    cases hok
    exact hv
  | cons a rest ih =>
    cases h1 : dependencyAttr lib v a with
    | error e => simp [dependencyLoop, h1, bind, Except.bind] at hok
    | ok v1 =>
      simp only [dependencyLoop, h1, bind, Except.bind] at hok
      apply ih v1 hok
      · by_cases hk : a.Key = HTTPStatusCodeKey
        · rw [dependencyAttr_status_of_key lib v v1 a hk h1]
          exact hall a (List.mem_cons_self a rest) hk
        · rw [dependencyAttr_status_of_not_key lib v v1 a hk h1]
          exact hv
      · intro b hb
        exact hall b (List.mem_cons_of_mem a hb)

/-- A loop that ends has the value of the status attributes when there is one. -/
theorem dependencyLoop_status (lib : Lib) (attrs : List KeyValue) (v v' : DependencyVars)
    (s : Int) (hok : dependencyLoop lib v attrs = Except.ok v')
    (hex : ∃ a ∈ attrs, a.Key = HTTPStatusCodeKey)
    (hall : ∀ a ∈ attrs, a.Key = HTTPStatusCodeKey → a.Value.AsInt32 = s) :
    v'.status = s := by
  induction attrs generalizing v with
  | nil =>
    obtain ⟨a, ha, _⟩ := hex
    cases ha
  | cons a rest ih =>
    have hrest : ∀ b ∈ rest, b.Key = HTTPStatusCodeKey → b.Value.AsInt32 = s :=
      fun b hb => hall b (List.mem_cons_of_mem a hb)
    cases h1 : dependencyAttr lib v a with
    | error e => simp [dependencyLoop, h1, bind, Except.bind] at hok
    | ok v1 =>
      simp only [dependencyLoop, h1, bind, Except.bind] at hok
      by_cases hk : a.Key = HTTPStatusCodeKey
      · apply dependencyLoop_status_keep lib rest v1 v' s hok _ hrest
        rw [dependencyAttr_status_of_key lib v v1 a hk h1]
        exact hall a (List.mem_cons_self a rest) hk
      · apply ih v1 hok _ hrest
        obtain ⟨b, hb, hbk⟩ := hex
        rcases List.mem_cons.mp hb with rfl | hb'
        · exact absurd hbk hk
        · exact ⟨b, hb', hbk⟩

/-! ### The steps of the dependency branch -/

theorem attachDependencyProps_fields (props : StrMap) (data : RemoteDependencyData) :
    (attachDependencyProps props data).Type_ = data.Type_ ∧
    (attachDependencyProps props data).Target = data.Target ∧
    (attachDependencyProps props data).ResultCode = data.ResultCode ∧
    (attachDependencyProps props data).Success = data.Success := by
  unfold attachDependencyProps
  split_ifs <;> exact ⟨rfl, rfl, rfl, rfl⟩

theorem setDependencyHTTP_of_url (lib : Lib) (v : DependencyVars) (data : RemoteDependencyData)
    (url : URL) (h : v.url = some url) :
    (setDependencyHTTP lib v data).Type_ = "HTTP" ∧
    (setDependencyHTTP lib v data).Target = url.Host := by
  unfold setDependencyHTTP
  rw [h]
  split_ifs <;> exact ⟨rfl, rfl⟩

theorem setDependencyHTTP_status (lib : Lib) (v : DependencyVars) (data : RemoteDependencyData)
    (url : URL) (h : v.url = some url) (hs : v.status ≠ -1) :
    (setDependencyHTTP lib v data).ResultCode = sprintfD v.status ∧
    (setDependencyHTTP lib v data).Success = decide (200 ≤ v.status ∧ v.status < 400) := by
  unfold setDependencyHTTP
  rw [h]
  simp only [if_pos hs]
  exact ⟨trivial, trivial⟩

/-- A span kind of the dependency branch that reads the attributes. -/
theorem not_request_of_client (k : SpanKind)
    (h : k = SpanKind.client ∨ k = SpanKind.producer) :
    ¬ (k = SpanKind.consumer ∨ k = SpanKind.server) := by
  rcases h with rfl | rfl <;> decide

/-! ### The retry buffer -/

theorem indexEnvelope_of_lt (envelopes : List Envelope) (i : Int) (h0 : 0 ≤ i)
    (h1 : i < envelopes.length) :
    ∃ envelope, envelopes[i.toNat]? = some envelope ∧
      indexEnvelope envelopes i = Except.ok envelope := by
  have hlt : i.toNat < envelopes.length := by omega
  refine ⟨envelopes[i.toNat], List.getElem?_eq_getElem hlt, ?_⟩
  unfold indexEnvelope
  rw [if_neg (not_lt.mpr h0), List.getElem?_eq_getElem hlt]
  rfl

theorem indexEnvelope_of_not_lt (envelopes : List Envelope) (i : Int)
    (h : i < 0 ∨ (envelopes.length : Int) ≤ i) :
    indexEnvelope envelopes i = Except.error Panic.indexOutOfRange := by
  unfold indexEnvelope
  by_cases h0 : i < 0
  · rw [if_pos h0]
    rfl
  · rw [if_neg h0]
    have hge : envelopes.length ≤ i.toNat := by omega
    rw [List.getElem?_eq_none hge]
    rfl

/-- With every index inside the batch the loop appends the envelopes at the indices. -/
theorem storeErrored_of_in_range (envelopes : List Envelope) (es : List transmitError)
    (storage : List Envelope)
    (hin : ∀ x ∈ es, 0 ≤ x.Index ∧ x.Index < envelopes.length) :
    storeErrored envelopes storage (es.map some)
        = Except.ok (storage ++ erroredEnvelopes envelopes es) ∧
      (erroredEnvelopes envelopes es).length = es.length := by
  induction es generalizing storage with
  | nil => exact ⟨by simp [storeErrored, erroredEnvelopes, pure, Except.pure], rfl⟩
  | cons x rest ih =>
    obtain ⟨h0, h1⟩ := hin x (List.mem_cons_self x rest)
    obtain ⟨envelope, hget, hidx⟩ := indexEnvelope_of_lt envelopes x.Index h0 h1
    have hrest := ih (storage ++ [envelope]) (fun y hy => hin y (List.mem_cons_of_mem x hy))
    have hcons : erroredEnvelopes envelopes (x :: rest)
        = envelope :: erroredEnvelopes envelopes rest := by
      simp [erroredEnvelopes, List.filterMap_cons, hget]
    constructor
    · simp only [List.map_cons, storeErrored, hidx, bind, Except.bind, hrest.1, hcons]
      simp
    · rw [hcons, List.length_cons, hrest.2, List.length_cons]

/-! ### The first loop of the exporter -/

theorem mapSpans_cons (lib : Lib) (e : Exporter) (span : Span) (rest : List Span)
    (envelope : Envelope) (envelopes : List Envelope)
    (h1 : newEnvelopeFromSpan lib span e.process = Except.ok envelope)
    (h2 : mapSpans lib e rest = Except.ok envelopes) :
    mapSpans lib e (span :: rest)
      = Except.ok ({ envelope with IKey := e.instrumentationKey } :: envelopes) := by
  simp only [mapSpans, h1, h2, bind, Except.bind, pure, Except.pure]

/-! ### The two branches of the mapping -/

theorem newEnvelopeFromSpan_request_shape (lib : Lib) (span : Span) (process : Process)
    (hk : span.SpanKind = SpanKind.consumer ∨ span.SpanKind = SpanKind.server) :
    ∃ (envelope : Envelope) (data : RequestData),
      newEnvelopeFromSpan lib span process = Except.ok envelope ∧
      envelope.Name = "Microsoft.Applicationappinsights.Request" ∧
      envelope.Data = some ⟨"RequestData", BaseData.request data⟩ := by
  simp only [newEnvelopeFromSpan, hk, if_true]
  exact ⟨_, _, rfl, by simp, rfl⟩

theorem newEnvelopeFromSpan_dependency_shape (lib : Lib) (span : Span) (process : Process)
    (envelope : Envelope)
    (hk : ¬ (span.SpanKind = SpanKind.consumer ∨ span.SpanKind = SpanKind.server))
    (h : newEnvelopeFromSpan lib span process = Except.ok envelope) :
    envelope.Name = remoteDependency ∧
    ∃ data : RemoteDependencyData,
      envelope.Data = some ⟨"RemoteDependencyData", BaseData.remoteDependency data⟩ := by
  by_cases hc : span.SpanKind = SpanKind.client ∨ span.SpanKind = SpanKind.producer
  · cases hloop : dependencyLoop lib ⟨"", none, -1⟩ span.Attributes with
    | error err =>
      simp [newEnvelopeFromSpan, hk, hc, hloop, bind, Except.bind] at h
    | ok v =>
      simp only [newEnvelopeFromSpan, hk, hc, hloop, if_false, if_true, bind, Except.bind, pure,
        Except.pure, Except.ok.injEq] at h
      subst h
      exact ⟨rfl, _, rfl⟩
  · simp only [newEnvelopeFromSpan, hk, hc, if_false, bind, Except.bind, pure, Except.pure,
      Except.ok.injEq] at h
    subst h
    exact ⟨rfl, _, rfl⟩

theorem newEnvelopeFromSpan_dependency_total (lib : Lib) (span : Span) (process : Process)
    (hk : ¬ (span.SpanKind = SpanKind.consumer ∨ span.SpanKind = SpanKind.server))
    (hc : ¬ (span.SpanKind = SpanKind.client ∨ span.SpanKind = SpanKind.producer)) :
    ∃ envelope : Envelope, newEnvelopeFromSpan lib span process = Except.ok envelope := by
  simp only [newEnvelopeFromSpan, hk, hc, if_false, bind, Except.bind, pure, Except.pure]
  exact ⟨_, rfl⟩

/-! ### The string variables of the request loop -/

theorem lastString_append_singleton (key : String) (attrs : List KeyValue) (a : KeyValue)
    (dflt : String) :
    lastString key (attrs ++ [a]) dflt
      = if a.Key = key then a.Value.AsString else lastString key attrs dflt := by
  unfold lastString
  rw [List.reverse_append, List.reverse_singleton, List.singleton_append, List.find?_cons]
  by_cases h : a.Key = key <;> simp [h]

/-- A variable that an iteration sets from the attributes of one key ends the loop with
the value of the last such attribute. -/
theorem requestLoop_field (proj : RequestVars → String) (key : String)
    (hstep : ∀ v a, proj (requestAttr v a) = if a.Key = key then a.Value.AsString else proj v)
    (attrs : List KeyValue) (v : RequestVars) :
    proj (attrs.foldl requestAttr v) = lastString key attrs (proj v) := by
  induction attrs using List.reverseRecOn with
  | nil => rfl
  | append_singleton init a ih =>
    rw [List.foldl_append, List.foldl_cons, List.foldl_nil, hstep, ih,
      lastString_append_singleton]

theorem requestLoop_method (attrs : List KeyValue) :
    (attrs.foldl requestAttr ⟨"", "", "", "", "", "", -1⟩).method
      = attrString HTTPMethodKey attrs :=
  requestLoop_field (fun v => v.method) HTTPMethodKey
    (fun v a => by
      by_cases h : a.Key = HTTPMethodKey
      · simp [requestAttr, h]
      · unfold requestAttr
        rw [if_neg h, if_neg h]
        split_ifs <;> rfl) attrs _

theorem requestLoop_route (attrs : List KeyValue) :
    (attrs.foldl requestAttr ⟨"", "", "", "", "", "", -1⟩).route
      = attrString HTTPRouteKey attrs :=
  requestLoop_field (fun v => v.route) HTTPRouteKey
    (fun v a => by
      by_cases h : a.Key = HTTPRouteKey
      · simp [requestAttr, h, HTTPRouteKey, HTTPMethodKey]
      · unfold requestAttr
        rw [if_neg h, if_neg h]
        split_ifs <;> rfl) attrs _

theorem requestLoop_path (attrs : List KeyValue) :
    (attrs.foldl requestAttr ⟨"", "", "", "", "", "", -1⟩).path
      = attrString HTTPTargetKey attrs :=
  requestLoop_field (fun v => v.path) HTTPTargetKey
    (fun v a => by
      by_cases h : a.Key = HTTPTargetKey
      · simp [requestAttr, h, HTTPTargetKey, HTTPRouteKey, HTTPMethodKey]
      · unfold requestAttr
        rw [if_neg h, if_neg h]
        split_ifs <;> rfl) attrs _

theorem requestLoop_host (attrs : List KeyValue) :
    (attrs.foldl requestAttr ⟨"", "", "", "", "", "", -1⟩).host
      = attrString HTTPHostKey attrs :=
  requestLoop_field (fun v => v.host) HTTPHostKey
    (fun v a => by
      by_cases h : a.Key = HTTPHostKey
      · simp [requestAttr, h, HTTPHostKey, HTTPTargetKey, HTTPRouteKey, HTTPMethodKey]
      · unfold requestAttr
        rw [if_neg h, if_neg h]
        split_ifs <;> rfl) attrs _

theorem requestLoop_scheme (attrs : List KeyValue) :
    (attrs.foldl requestAttr ⟨"", "", "", "", "", "", -1⟩).scheme
      = attrString HTTPSchemeKey attrs :=
  requestLoop_field (fun v => v.scheme) HTTPSchemeKey
    (fun v a => by
      by_cases h : a.Key = HTTPSchemeKey
      · simp [requestAttr, h, HTTPSchemeKey, HTTPHostKey, HTTPTargetKey, HTTPRouteKey,
          HTTPMethodKey]
      · unfold requestAttr
        rw [if_neg h, if_neg h]
        split_ifs <;> rfl) attrs _

theorem requestLoop_url (attrs : List KeyValue) :
    (attrs.foldl requestAttr ⟨"", "", "", "", "", "", -1⟩).url
      = attrString HTTPURLKey attrs :=
  requestLoop_field (fun v => v.url) HTTPURLKey
    (fun v a => by
      by_cases h : a.Key = HTTPURLKey
      · simp [requestAttr, h, HTTPURLKey, HTTPSchemeKey, HTTPHostKey, HTTPTargetKey,
          HTTPRouteKey, HTTPMethodKey]
      · unfold requestAttr
        rw [if_neg h, if_neg h]
        split_ifs <;> rfl) attrs _

/-! ### Maps -/

theorem StrMap.get_set_self (m : StrMap) (k v : String) : (m.set k v).get k = some v := by
  induction m with
  | nil => simp [StrMap.set, StrMap.get]
  | cons p m ih =>
    obtain ⟨k', v'⟩ := p
    by_cases h : k' = k
    · simp [StrMap.set, StrMap.get, h]
    · simp [StrMap.set, StrMap.get, h, ih]

theorem StrMap.get_set_of_ne (m : StrMap) (k k2 v : String) (hne : k2 ≠ k) :
    (m.set k v).get k2 = m.get k2 := by
  induction m with
  | nil => simp [StrMap.set, StrMap.get, hne.symm]
  | cons p m ih =>
    obtain ⟨k', v'⟩ := p
    by_cases h : k' = k
    · subst h
      simp [StrMap.set, StrMap.get, hne.symm]
    · by_cases h2 : k' = k2
      · subst h2
        simp [StrMap.set, StrMap.get, h]
      · simp [StrMap.set, StrMap.get, h, h2, ih]

theorem StrMap.length_pos_of_get (m : StrMap) (k v : String) (h : m.get k = some v) :
    m.length > 0 := by
  cases m with
  | nil => simp [StrMap.get] at h
  | cons p m => simp

theorem String.append_ne_empty_left (a b : String) (h : a ≠ "") : a ++ b ≠ "" := by
  intro hab
  apply h
  have hlen : (a ++ b).length = 0 := by rw [hab]; rfl
  rw [String.length_append] at hlen
  have ha : a.length = 0 := by omega
  exact String.ext (List.length_eq_zero.mp ha)

/-! ### What the steps of the request branch set -/

theorem setRequestName_of_route (v : RequestVars) (s : RequestState)
    (hm : v.method ≠ "") (hr : v.route ≠ "") :
    setRequestName v s =
      { envelope :=
          { s.envelope with
            Tags := s.envelope.Tags.set "ai.operation.name" (v.method ++ " " ++ v.route) }
        data := { s.data with Name := v.method ++ " " ++ v.route }
        props := s.props.set "request.name" (v.method ++ " " ++ v.route) } := by
  unfold setRequestName
  rw [if_pos hm]
  simp only [if_pos hr]

theorem setRequestURL_of_ne (url : String) (s : RequestState) (h : url ≠ "") :
    setRequestURL url s =
      { s with data := { s.data with URL := url }, props := s.props.set "request.url" url } := by
  unfold setRequestURL
  rw [if_pos h]

theorem setRequestURL_data_Name (url : String) (s : RequestState) :
    (setRequestURL url s).data.Name = s.data.Name := by
  unfold setRequestURL
  split_ifs <;> rfl

theorem setRequestURL_props_get (url : String) (s : RequestState) (k : String)
    (hk : k ≠ "request.url") : (setRequestURL url s).props.get k = s.props.get k := by
  unfold setRequestURL
  split_ifs
  · exact StrMap.get_set_of_ne s.props "request.url" k url hk
  · rfl

theorem setRequestStatus_data_Name (status : Int) (s : RequestState) :
    (setRequestStatus status s).data.Name = s.data.Name := by
  unfold setRequestStatus
  split_ifs <;> rfl

theorem setRequestStatus_data_URL (status : Int) (s : RequestState) :
    (setRequestStatus status s).data.URL = s.data.URL := by
  unfold setRequestStatus
  split_ifs <;> rfl

theorem setRequestStatus_props (status : Int) (s : RequestState) :
    (setRequestStatus status s).props = s.props := by
  unfold setRequestStatus
  split_ifs <;> rfl

theorem attachRequestProps_data_Name (s : RequestState) :
    (attachRequestProps s).data.Name = s.data.Name := by
  unfold attachRequestProps
  split_ifs <;> rfl

theorem attachRequestProps_data_URL (s : RequestState) :
    (attachRequestProps s).data.URL = s.data.URL := by
  unfold attachRequestProps
  split_ifs <;> rfl

theorem attachRequestProps_of_get (s : RequestState) (k v : String)
    (h : s.props.get k = some v) : (attachRequestProps s).data.Properties = some s.props := by
  unfold attachRequestProps
  rw [if_pos (StrMap.length_pos_of_get s.props k v h)]

/-! ### Splitting a pair of the connection string -/

/-- Splitting at `=`: the parts are at least two and start with `key` exactly when the
pair starts with `key=`. -/
theorem splitOn_key (key pair : List Char) (hkey : '=' ∉ key) :
    (2 ≤ (pair.splitOn '=').length ∧ (pair.splitOn '=').head? = some key)
      ↔ pair.take (key.length + 1) = key ++ ['='] := by
  constructor
  · rintro ⟨hlen, hhead⟩
    have hj := List.intercalate_splitOn pair '='
    cases hs : pair.splitOn '=' with
    | nil => rw [hs] at hlen; simp at hlen
    | cons hd tl =>
      rw [hs] at hlen hhead hj
      simp only [List.head?_cons, Option.some.injEq] at hhead
      subst hhead
      cases tl with
      | nil => simp at hlen
      | cons t tl' =>
        rw [← hj]
        simp [List.intercalate, List.intersperse, List.take_append_eq_append_take]
  · intro htake
    have hpair : pair = key ++ '=' :: pair.drop (key.length + 1) := by
      conv_lhs => rw [← List.take_append_drop (key.length + 1) pair, htake]
      simp
    have hsplit : pair.splitOn '=' = key :: (pair.drop (key.length + 1)).splitOn '=' := by
      conv_lhs => rw [hpair]
      exact List.splitOnP_first (fun c => c == '=') key (fun x hx => by
        simp only [beq_iff_eq]; rintro rfl; exact hkey hx) '=' (by simp) _
    rw [hsplit]
    refine ⟨?_, rfl⟩
    have := List.splitOnP_ne_nil (fun c => c == '=') (pair.drop (key.length + 1))
    cases h : (pair.drop (key.length + 1)).splitOn '=' with
    | nil => exact absurd h this
    | cons a b => simp

theorem splitOn_key_value (key pair : List Char) (hkey : '=' ∉ key)
    (htake : pair.take (key.length + 1) = key ++ ['=']) :
    ['='].intercalate ((pair.splitOn '=').drop 1) = pair.drop (key.length + 1) := by
  have hpair : pair = key ++ '=' :: pair.drop (key.length + 1) := by
    conv_lhs => rw [← List.take_append_drop (key.length + 1) pair, htake]
    simp
  have hsplit : pair.splitOn '=' = key :: (pair.drop (key.length + 1)).splitOn '=' := by
    conv_lhs => rw [hpair]
    exact List.splitOnP_first (fun c => c == '=') key (fun x hx => by
      simp only [beq_iff_eq]; rintro rfl; exact hkey hx) '=' (by simp) _
  rw [hsplit, List.drop_one, List.tail_cons, List.intercalate_splitOn]

theorem stringsSplit_key (key pair : String) (hkey : '=' ∉ key.toList) :
    (2 ≤ (stringsSplit pair '=').length ∧ (stringsSplit pair '=').headD "" = key)
      ↔ pair.toList.take (key.length + 1) = (key ++ "=").toList := by
  have h := splitOn_key key.toList pair.toList hkey
  have hlen : key.toList.length = key.length := rfl
  rw [hlen] at h
  have hk : (key ++ "=").toList = key.toList ++ ['='] := by
    simp [String.toList]
  rw [hk, ← h]
  unfold stringsSplit
  rw [List.length_map]
  cases hs : pair.toList.splitOn '=' with
  | nil => simp
  | cons hd tl =>
    simp only [List.map_cons, List.headD_cons, List.head?_cons, Option.some.injEq]
    constructor
    · rintro ⟨h1, h2⟩
      exact ⟨h1, by subst h2; rfl⟩
    · rintro ⟨h1, h2⟩
      exact ⟨h1, by subst h2; rfl⟩

theorem stringsJoin_key (key pair : String) (hkey : '=' ∉ key.toList)
    (htake : pair.toList.take (key.length + 1) = (key ++ "=").toList) :
    stringsJoin ((stringsSplit pair '=').drop 1) "="
      = String.mk (pair.toList.drop (key.length + 1)) := by
  have hk : (key ++ "=").toList = key.toList ++ ['='] := by
    simp [String.toList]
  rw [hk] at htake
  have h := splitOn_key_value key.toList pair.toList hkey htake
  unfold stringsJoin stringsSplit
  rw [← List.map_drop, List.map_map]
  have hid : (String.toList ∘ String.mk) = id := by
    funext l
    rfl
  rw [hid, List.map_id]
  exact congrArg String.mk h

/-- What one pair does to a variable: `field` is the variable of `key`. -/
theorem connectionPair_field (field : ConnectionVars → String) (key : String)
    (hkey : '=' ∉ key.toList)
    (hset : ∀ (vars : ConnectionVars) (pair : String),
      field (connectionPair vars pair)
        = if 2 ≤ (stringsSplit pair '=').length ∧ (stringsSplit pair '=').headD "" = key then
            stringsJoin ((stringsSplit pair '=').drop 1) "="
          else field vars)
    (vars : ConnectionVars) (pair : String) :
    field (connectionPair vars pair) = (pairValue key pair).getD (field vars) := by
  rw [hset]
  unfold pairValue
  by_cases h : pair.toList.take (key.length + 1) = (key ++ "=").toList
  · rw [if_pos ((stringsSplit_key key pair hkey).mpr h), if_pos h, stringsJoin_key key pair hkey h]
    rfl
  · rw [if_neg (fun hc => h ((stringsSplit_key key pair hkey).mp hc)), if_neg h]
    rfl

theorem lastPairValue_append_singleton (key : String) (pairs : List String) (pair : String)
    (dflt : String) :
    lastPairValue key (pairs ++ [pair]) dflt
      = (pairValue key pair).getD (lastPairValue key pairs dflt) := by
  unfold lastPairValue
  rw [List.reverse_append, List.reverse_singleton, List.singleton_append, List.find?_cons]
  cases h : pairValue key pair with
  | none => simp
  | some x => simp [h]

/-- The loop over the pairs leaves in the variable of `key` the value of the last pair
that starts with `key=`. -/
theorem connectionLoop_field (field : ConnectionVars → String) (key : String)
    (hkey : '=' ∉ key.toList)
    (hset : ∀ (vars : ConnectionVars) (pair : String),
      field (connectionPair vars pair)
        = if 2 ≤ (stringsSplit pair '=').length ∧ (stringsSplit pair '=').headD "" = key then
            stringsJoin ((stringsSplit pair '=').drop 1) "="
          else field vars)
    (pairs : List String) (vars : ConnectionVars) :
    field (pairs.foldl connectionPair vars) = lastPairValue key pairs (field vars) := by
  induction pairs using List.reverseRecOn with
  | nil => rfl
  | append_singleton init pair ih =>
    rw [List.foldl_append, List.foldl_cons, List.foldl_nil,
      connectionPair_field field key hkey hset, ih, lastPairValue_append_singleton]

/-! ### The variables of the connection string loop -/

theorem connectionPair_endpoint (vars : ConnectionVars) (pair : String) :
    (connectionPair vars pair).endpoint
      = if 2 ≤ (stringsSplit pair '=').length
            ∧ (stringsSplit pair '=').headD "" = "ingestionendpoint" then
          stringsJoin ((stringsSplit pair '=').drop 1) "="
        else vars.endpoint := by
  unfold connectionPair
  simp only []
  generalize stringsJoin (List.drop 1 (stringsSplit pair '=')) "=" = value
  generalize (stringsSplit pair '=').headD "" = key
  generalize (stringsSplit pair '=').length = n
  split_ifs <;> simp_all

theorem connectionPair_ikey (vars : ConnectionVars) (pair : String) :
    (connectionPair vars pair).ikey
      = if 2 ≤ (stringsSplit pair '=').length
            ∧ (stringsSplit pair '=').headD "" = "instrumentationkey" then
          stringsJoin ((stringsSplit pair '=').drop 1) "="
        else vars.ikey := by
  unfold connectionPair
  simp only []
  generalize stringsJoin (List.drop 1 (stringsSplit pair '=')) "=" = value
  generalize (stringsSplit pair '=').headD "" = key
  generalize (stringsSplit pair '=').length = n
  split_ifs <;> simp_all

theorem connectionPair_suffix (vars : ConnectionVars) (pair : String) :
    (connectionPair vars pair).suffix
      = if 2 ≤ (stringsSplit pair '=').length
            ∧ (stringsSplit pair '=').headD "" = "endpointsuffix" then
          stringsJoin ((stringsSplit pair '=').drop 1) "="
        else vars.suffix := by
  unfold connectionPair
  simp only []
  generalize stringsJoin (List.drop 1 (stringsSplit pair '=')) "=" = value
  generalize (stringsSplit pair '=').headD "" = key
  generalize (stringsSplit pair '=').length = n
  split_ifs <;> simp_all

theorem connectionPair_location (vars : ConnectionVars) (pair : String) :
    (connectionPair vars pair).location
      = if 2 ≤ (stringsSplit pair '=').length
            ∧ (stringsSplit pair '=').headD "" = "location" then
          stringsJoin ((stringsSplit pair '=').drop 1) "="
        else vars.location := by
  unfold connectionPair
  simp only []
  generalize stringsJoin (List.drop 1 (stringsSplit pair '=')) "=" = value
  generalize (stringsSplit pair '=').headD "" = key
  generalize (stringsSplit pair '=').length = n
  split_ifs <;> simp_all

/-- The result of `parseConnectionString` in terms of the values of the four keys in the
lower-cased connection string. -/
theorem parseConnectionString_eq (unicodeToLower : Char → Char) (cs : String) :
    parseConnectionString unicodeToLower cs
      = (stringsTrimRight (resolvedBase (stringsToLower unicodeToLower cs)) " /" ++ "/v2/track",
          connectionValue "instrumentationkey" (stringsToLower unicodeToLower cs), none) := by
  have he := connectionLoop_field (fun v => v.endpoint) "ingestionendpoint" (by decide)
    connectionPair_endpoint (stringsSplit (stringsToLower unicodeToLower cs) ';') ⟨"", "", "", ""⟩
  have hi := connectionLoop_field (fun v => v.ikey) "instrumentationkey" (by decide)
    connectionPair_ikey (stringsSplit (stringsToLower unicodeToLower cs) ';') ⟨"", "", "", ""⟩
  have hs := connectionLoop_field (fun v => v.suffix) "endpointsuffix" (by decide)
    connectionPair_suffix (stringsSplit (stringsToLower unicodeToLower cs) ';') ⟨"", "", "", ""⟩
  have hl := connectionLoop_field (fun v => v.location) "location" (by decide)
    connectionPair_location (stringsSplit (stringsToLower unicodeToLower cs) ';') ⟨"", "", "", ""⟩
  simp only at he hi hs hl
  unfold parseConnectionString resolvedBase connectionValue
  simp only [he, hi, hs, hl]
  by_cases h1 : lastPairValue "ingestionendpoint"
      (stringsSplit (stringsToLower unicodeToLower cs) ';') "" = ""
  · by_cases h2 : lastPairValue "endpointsuffix"
        (stringsSplit (stringsToLower unicodeToLower cs) ';') "" = ""
    · simp [h1, h2]
    · by_cases h3 : lastPairValue "location"
          (stringsSplit (stringsToLower unicodeToLower cs) ';') "" = ""
      · simp [h1, h2, h3]
      · simp [h1, h2, h3]
  · simp [h1]

/-! ### Strings -/

theorem String.toList_append' (a b : String) : (a ++ b).toList = a.toList ++ b.toList := by
  simp [String.toList]

theorem stringsToLower_append (u : Char → Char) (a b : String) :
    stringsToLower u (a ++ b) = stringsToLower u a ++ stringsToLower u b := by
  apply String.ext
  simp [stringsToLower, String.toList]

theorem stringsTrimRight_slash_space (s : String) :
    stringsTrimRight s " /"
      = String.mk (s.toList.rdropWhile (fun c => decide (c = '/' ∨ c = ' '))) := by
  unfold stringsTrimRight
  congr 1
  apply congrArg (fun p => List.rdropWhile p s.toList)
  funext c
  have h : " /".toList = [' ', '/'] := rfl
  rw [h]
  by_cases h1 : c = ' '
  · subst h1
    rfl
  · by_cases h2 : c = '/'
    · subst h2
      rfl
    · have hr : decide (c = '/' ∨ c = ' ') = false := by
        rw [decide_eq_false_iff_not]
        rintro (h | h)
        · exact h2 h
        · exact h1 h
      have e1 : (c == ' ') = false := beq_false_of_ne h1
      have e2 : (c == '/') = false := beq_false_of_ne h2
      rw [hr, List.contains_eq_any_beq]
      simp only [List.any_cons, List.any_nil, Bool.or_false, e1, e2, Bool.or_self]

theorem pairValue_self (key value : String) :
    pairValue key (key ++ "=" ++ value) = some value := by
  unfold pairValue
  have hlen : (key ++ "=").toList.length = key.length + 1 := by
    rw [String.toList_append', List.length_append]
    rfl
  have hl : (key ++ "=" ++ value).toList = (key ++ "=").toList ++ value.toList := by
    simp [String.toList]
  rw [hl, ← hlen, List.take_left, if_pos rfl, List.drop_left]
  rfl

theorem stringsSplit_two (p1 p2 : String) (h1 : ';' ∉ p1.toList) (h2 : ';' ∉ p2.toList) :
    stringsSplit (p1 ++ ";" ++ p2) ';' = [p1, p2] := by
  unfold stringsSplit
  have hl : (p1 ++ ";" ++ p2).toList = p1.toList ++ ';' :: p2.toList := by
    simp [String.toList]
  rw [hl]
  have hs : (p1.toList ++ ';' :: p2.toList).splitOn ';' = p1.toList :: p2.toList.splitOn ';' :=
    List.splitOnP_first (fun c => c == ';') p1.toList (fun x hx => by
      simp only [beq_iff_eq]; rintro rfl; exact h1 hx) ';' (by simp) _
  have hs2 : p2.toList.splitOn ';' = [p2.toList] :=
    List.splitOnP_eq_single (fun c => c == ';') p2.toList (fun x hx => by
      simp only [beq_iff_eq]; rintro rfl; exact h2 hx)
  rw [hs, hs2]
  rfl

theorem pairValue_instrumentationkey_of_endpoint (value : String) :
    pairValue "instrumentationkey" ("ingestionendpoint" ++ "=" ++ value) = none := by
  unfold pairValue
  have hl : ("ingestionendpoint" ++ "=" ++ value).toList
      = 'i' :: 'n' :: 'g' :: ("estionendpoint=".toList ++ value.toList) := by
    simp [String.toList]
  have hk : ("instrumentationkey" ++ "=").toList = 'i' :: 'n' :: 's' :: "trumentationkey=".toList :=
    rfl
  have hn : "instrumentationkey".length + 1 = 16 + 1 + 1 + 1 := rfl
  rw [hl, hk, hn, if_neg]
  simp [List.take_succ_cons]

/-! ### The HTTP status read through `AsInt32` -/

/-- An integer in the range of `int32` is read back by `AsInt32`. -/
theorem AsInt32_IntValue (s : Int) (hlo : -2 ^ 31 ≤ s) (hhi : s < 2 ^ 31) :
    (IntValue s).AsInt32 = s := by
  unfold Value.AsInt32 IntValue
  simp only []
  have h : ((s % 2 ^ 64).toNat % 2 ^ 32 : Nat) = ((s % 2 ^ 32).toNat) := by omega
  rw [h]
  split_ifs with hlt
  · simp only [Int.ofNat_eq_coe]
    omega
  · simp only [Int.ofNat_eq_coe]
    omega

/-- The request branch on a status that the loop reads as `s` through `AsInt32`. -/
theorem request_status_of_AsInt32 (lib : Lib) (span : Span) (process : Process) (s : Int)
    (hkind : span.SpanKind = SpanKind.server ∨ span.SpanKind = SpanKind.consumer)
    (hex : ∃ a ∈ span.Attributes, a.Key = HTTPStatusCodeKey)
    (hall : ∀ a ∈ span.Attributes, a.Key = HTTPStatusCodeKey → a.Value.AsInt32 = s)
    (hs : s ≠ -1) :
    ∃ (envelope : Envelope) (data : RequestData),
      newEnvelopeFromSpan lib span process = Except.ok envelope ∧
      envelope.Data = some ⟨"RequestData", BaseData.request data⟩ ∧
      data.ResponseCode = sprintfD s ∧
      data.Success = decide (200 ≤ s ∧ s < 400) ∧
      (s = 200 ∨ s = 399 → data.Success = true) ∧ (s = 400 → data.Success = false) := by
  have hk : span.SpanKind = SpanKind.consumer ∨ span.SpanKind = SpanKind.server := hkind.symm
  have hstatus := requestLoop_status span.Attributes ⟨"", "", "", "", "", "", -1⟩ s hex hall
  simp only [newEnvelopeFromSpan, hk, if_true, hstatus]
  have hsucc : ∀ st : RequestState,
      (attachRequestProps (setRequestStatus s st)).data.Success
        = decide (200 ≤ s ∧ s < 400) := by
    intro st
    rw [attachRequestProps_data_Success]
    exact (setRequestStatus_of_ne s st hs).2
  refine ⟨_, _, rfl, rfl, ?_, hsucc _, ?_, ?_⟩
  · rw [attachRequestProps_data_ResponseCode]
    exact (setRequestStatus_of_ne s _ hs).1
  · intro h
    rw [hsucc]
    rcases h with rfl | rfl <;> decide
  · intro h
    rw [hsucc, h]
    decide


/-- The dependency branch, with a parsed URL, on a status that the loop reads as `s`
through `AsInt32`. -/
theorem dependency_status_of_AsInt32 (lib : Lib) (span : Span) (process : Process)
    (a : KeyValue) (ref : URL) (s : Int)
    (hkind : span.SpanKind = SpanKind.client ∨ span.SpanKind = SpanKind.producer)
    (hone : span.Attributes.filter (fun b => decide (b.Key = HTTPURLKey)) = [a])
    (hparse : lib.urlParse a.Value.AsString = some ref) (hscheme : ref.Scheme ≠ "")
    (hex : ∃ b ∈ span.Attributes, b.Key = HTTPStatusCodeKey)
    (hall : ∀ b ∈ span.Attributes, b.Key = HTTPStatusCodeKey → b.Value.AsInt32 = s)
    (hs : s ≠ -1) :
    ∃ (envelope : Envelope) (data : RemoteDependencyData),
      newEnvelopeFromSpan lib span process = Except.ok envelope ∧
      envelope.Data = some ⟨"RemoteDependencyData", BaseData.remoteDependency data⟩ ∧
      data.Success = decide (200 ≤ s ∧ s < 400) ∧
      data.ResultCode = sprintfD s := by
  obtain ⟨v, hloop, hurl⟩ :=
    dependencyLoop_url_one lib span.Attributes ⟨"", none, -1⟩ a ref rfl hone hparse hscheme
  have hstatus : v.status = s :=
    dependencyLoop_status lib span.Attributes _ v s hloop hex hall
  have hs' : v.status ≠ -1 := by rw [hstatus]; exact hs
  simp only [newEnvelopeFromSpan, not_request_of_client _ hkind, hkind, if_false, if_true, hloop,
    bind, Except.bind, pure, Except.pure]
  refine ⟨_, _, rfl, rfl, ?_, ?_⟩
  · rw [(attachDependencyProps_fields _ _).2.2.2,
      (setDependencyHTTP_status lib v _ _ hurl hs').2, hstatus]
  · rw [(attachDependencyProps_fields _ _).2.2.1,
      (setDependencyHTTP_status lib v _ _ hurl hs').1, hstatus]

/-! ## The claims -/

/-- C1: for a span of kind server or consumer, whatever its attributes and status,
`newEnvelopeFromSpan` returns an envelope named `Microsoft.Applicationappinsights.Request`
whose `Data.BaseData` is a `RequestData` with `ID` the string form of the span id. -/
theorem C1_request_envelope (lib : Lib) (span : Span) (process : Process)
    (hkind : span.SpanKind = SpanKind.server ∨ span.SpanKind = SpanKind.consumer) :
    ∃ (envelope : Envelope) (data : RequestData),
      newEnvelopeFromSpan lib span process = Except.ok envelope ∧
      envelope.Name = "Microsoft.Applicationappinsights.Request" ∧
      envelope.Data = some ⟨"RequestData", BaseData.request data⟩ ∧
      data.ID = span.SpanContext.SpanID.String := by
  have hk : span.SpanKind = SpanKind.consumer ∨ span.SpanKind = SpanKind.server := hkind.symm
  simp only [newEnvelopeFromSpan, hk, if_true]
  exact ⟨_, _, rfl, by simp, rfl, by simp⟩

/-- C1, at a server span without attributes. -/
theorem C1_request_envelope_witness :
    ((exampleSpan SpanKind.server 0 []).SpanKind = SpanKind.server ∨
        (exampleSpan SpanKind.server 0 []).SpanKind = SpanKind.consumer) ∧
    ∃ (envelope : Envelope) (data : RequestData),
      newEnvelopeFromSpan mapLib (exampleSpan SpanKind.server 0 []) exampleProcess
        = Except.ok envelope ∧
      envelope.Name = "Microsoft.Applicationappinsights.Request" ∧
      envelope.Data = some ⟨"RequestData", BaseData.request data⟩ ∧
      data.ID = (exampleSpan SpanKind.server 0 []).SpanContext.SpanID.String :=
  ⟨Or.inl rfl, C1_request_envelope mapLib (exampleSpan SpanKind.server 0 []) exampleProcess
    (Or.inl rfl)⟩

set_option maxRecDepth 100000 in
/-- C3: for a non-negative elapsed time `t` in nanoseconds, `fmtDuration t` is the text
`D.HH:MM:SS.ffffff` with `D` the unpadded decimal number of days, `HH < 24`, `MM < 60`
and `SS < 60` in exactly two digits, `ffffff < 1000000` in exactly six digits, and
`(((D*24 + HH)*60 + MM)*60 + SS)*1000000 + ffffff` the whole microseconds of `t`;
1 day 2 hours 3 minutes 4.5 seconds gives `1.02:03:04.500000`. -/
theorem C3_fmtDuration_layout (t : Int) (h0 : 0 ≤ t) (h1 : t < 2 ^ 63) :
    (∃ D HH MM SS ff : Nat,
      HH < 24 ∧ MM < 60 ∧ SS < 60 ∧ ff < 1000000 ∧
      (((D * 24 + HH) * 60 + MM) * 60 + SS) * 1000000 + ff = t.toNat / 1000 ∧
      fmtDuration t =
        Nat.repr D ++ "." ++ String.mk (fixedDigits 2 HH) ++ ":" ++ String.mk (fixedDigits 2 MM)
          ++ ":" ++ String.mk (fixedDigits 2 SS) ++ "." ++ String.mk (fixedDigits 6 ff))
    ∧ fmtDuration (((((1 * 24 + 2) * 60 + 3) * 60 + 4) * 1000 + 500) * 1000000)
        = "1.02:03:04.500000" := by
  refine ⟨?_, by decide⟩
  obtain ⟨n, rfl⟩ := Int.eq_ofNat_of_zero_le h0
  refine ⟨n / 3600000000000 / 24, n / 3600000000000 % 24, n % 3600000000000 / 60000000000,
    n % 60000000000 / 1000000000, n % 1000000000 / 1000, by omega, by omega, by omega, by omega,
    ?_, ?_⟩
  · simp only [Int.toNat_ofNat]
    omega
  · rw [fmtDuration_natCast n h1, sprintfD_natCast,
      sprintfD0_natCast 1 _ (by omega), sprintfD0_natCast 1 _ (by omega),
      sprintfD0_natCast 1 _ (by omega), sprintfD0_natCast 5 _ (by omega)]

/-- C3, at 1.5 ms. -/
theorem C3_fmtDuration_layout_witness :
    (0 : Int) ≤ 1500000 ∧ (1500000 : Int) < 2 ^ 63 ∧
    ((∃ D HH MM SS ff : Nat,
      HH < 24 ∧ MM < 60 ∧ SS < 60 ∧ ff < 1000000 ∧
      (((D * 24 + HH) * 60 + MM) * 60 + SS) * 1000000 + ff = (1500000 : Int).toNat / 1000 ∧
      fmtDuration 1500000 =
        Nat.repr D ++ "." ++ String.mk (fixedDigits 2 HH) ++ ":" ++ String.mk (fixedDigits 2 MM)
          ++ ":" ++ String.mk (fixedDigits 2 SS) ++ "." ++ String.mk (fixedDigits 6 ff))
    ∧ fmtDuration (((((1 * 24 + 2) * 60 + 3) * 60 + 4) * 1000 + 500) * 1000000)
        = "1.02:03:04.500000") :=
  ⟨by decide, by decide, C3_fmtDuration_layout 1500000 (by decide) (by decide)⟩

/-- C4 fails on the code for an integer outside `int32`: the loop reads the attribute
through `AsInt32`, so a server span whose `http.status_code` is 4294967496 (2^32 + 200)
gets `ResponseCode` = `200` and `Success` = true, not the text of 4294967496 and
false. -/
theorem C4_counterexample :
    (serverSpanWideStatus.SpanKind = SpanKind.server ∧
      (⟨HTTPStatusCodeKey, IntValue 4294967496⟩ : KeyValue) ∈ serverSpanWideStatus.Attributes ∧
      (4294967496 : Int) ≠ -1) ∧
    ∃ (envelope : Envelope) (data : RequestData),
      newEnvelopeFromSpan mapLib serverSpanWideStatus exampleProcess = Except.ok envelope ∧
      envelope.Data = some ⟨"RequestData", BaseData.request data⟩ ∧
      data.ResponseCode = "200" ∧ data.Success = true ∧
      data.ResponseCode ≠ sprintfD 4294967496 ∧
      data.Success ≠ decide (200 ≤ (4294967496 : Int) ∧ (4294967496 : Int) < 400) := by
  refine ⟨by decide, _, _, rfl, rfl, ?_, ?_, ?_, ?_⟩ <;> decide

/-- C4, amended: for a server or consumer span whose `http.status_code` attribute holds
the integer `s`, with `s` in the range of `int32` and not the sentinel -1, and for every
span status code, the `RequestData` has `ResponseCode` the decimal text of `s` and
`Success = (200 <= s and s < 400)`: true at 200 and 399, false at 400. -/
theorem C4_request_http_status (lib : Lib) (span : Span) (process : Process) (s : Int)
    (hkind : span.SpanKind = SpanKind.server ∨ span.SpanKind = SpanKind.consumer)
    (hex : ∃ a ∈ span.Attributes, a.Key = HTTPStatusCodeKey)
    (hall : ∀ a ∈ span.Attributes, a.Key = HTTPStatusCodeKey → a.Value = IntValue s)
    (hlo : -2 ^ 31 ≤ s) (hhi : s < 2 ^ 31) (hs : s ≠ -1) :
    ∃ (envelope : Envelope) (data : RequestData),
      newEnvelopeFromSpan lib span process = Except.ok envelope ∧
      envelope.Data = some ⟨"RequestData", BaseData.request data⟩ ∧
      data.ResponseCode = sprintfD s ∧
      data.Success = decide (200 ≤ s ∧ s < 400) ∧
      (s = 200 ∨ s = 399 → data.Success = true) ∧ (s = 400 → data.Success = false) :=
  request_status_of_AsInt32 lib span process s hkind hex
    (fun a ha hk => by rw [hall a ha hk]; exact AsInt32_IntValue s hlo hhi) hs

/-- C4 amended, at the boundary value 399 on a span whose own status is an error. -/
theorem C4_request_http_status_witness :
    ((exampleSpan SpanKind.server 1 [⟨HTTPStatusCodeKey, IntValue 399⟩]).SpanKind
        = SpanKind.server ∨
      (exampleSpan SpanKind.server 1 [⟨HTTPStatusCodeKey, IntValue 399⟩]).SpanKind
        = SpanKind.consumer) ∧
    (∃ a ∈ (exampleSpan SpanKind.server 1 [⟨HTTPStatusCodeKey, IntValue 399⟩]).Attributes,
      a.Key = HTTPStatusCodeKey) ∧
    (∀ a ∈ (exampleSpan SpanKind.server 1 [⟨HTTPStatusCodeKey, IntValue 399⟩]).Attributes,
      a.Key = HTTPStatusCodeKey → a.Value = IntValue 399) ∧
    (-2 ^ 31 : Int) ≤ 399 ∧ (399 : Int) < 2 ^ 31 ∧ (399 : Int) ≠ -1 ∧
    ∃ (envelope : Envelope) (data : RequestData),
      newEnvelopeFromSpan mapLib
          (exampleSpan SpanKind.server 1 [⟨HTTPStatusCodeKey, IntValue 399⟩]) exampleProcess
        = Except.ok envelope ∧
      envelope.Data = some ⟨"RequestData", BaseData.request data⟩ ∧
      data.ResponseCode = sprintfD 399 ∧
      data.Success = decide (200 ≤ (399 : Int) ∧ (399 : Int) < 400) ∧
      ((399 : Int) = 200 ∨ (399 : Int) = 399 → data.Success = true) ∧
      ((399 : Int) = 400 → data.Success = false) :=
  ⟨Or.inl rfl, by decide, by decide, by decide, by decide, by decide,
    C4_request_http_status mapLib
      (exampleSpan SpanKind.server 1 [⟨HTTPStatusCodeKey, IntValue 399⟩]) exampleProcess 399
      (Or.inl rfl) (by decide) (by decide) (by decide) (by decide) (by decide)⟩

/-- C6: for a span of any kind with an empty attribute list, `newEnvelopeFromSpan` returns
an envelope whose payload has no `Properties` (a nil pointer, not a pointer to an empty
map), and mapping the same span and process again gives the same result. -/
theorem C6_empty_attributes (lib : Lib) (span : Span) (process : Process)
    (hattrs : span.Attributes = []) :
    (∃ envelope : Envelope,
      newEnvelopeFromSpan lib span process = Except.ok envelope ∧
      ((∃ data : RequestData,
          envelope.Data = some ⟨"RequestData", BaseData.request data⟩ ∧
          data.Properties = none) ∨
        (∃ data : RemoteDependencyData,
          envelope.Data = some ⟨"RemoteDependencyData", BaseData.remoteDependency data⟩ ∧
          data.Properties = none))) ∧
    ∀ (span2 : Span) (process2 : Process), span2 = span → process2 = process →
      newEnvelopeFromSpan lib span2 process2 = newEnvelopeFromSpan lib span process := by
  refine ⟨?_, fun span2 process2 h1 h2 => by rw [h1, h2]⟩
  cases hk : span.SpanKind <;>
    simp [newEnvelopeFromSpan, hk, hattrs, attributeProps, setRequestName, requestURL,
      setRequestURL, setRequestStatus, attachRequestProps, dependencyLoop, setDependencyHTTP,
      attachDependencyProps, pure, Except.pure, bind, Except.bind]

/-- C6, at a client span without attributes. -/
theorem C6_empty_attributes_witness :
    (exampleSpan SpanKind.client 0 []).Attributes = [] ∧
    ((∃ envelope : Envelope,
      newEnvelopeFromSpan mapLib (exampleSpan SpanKind.client 0 []) exampleProcess
        = Except.ok envelope ∧
      ((∃ data : RequestData,
          envelope.Data = some ⟨"RequestData", BaseData.request data⟩ ∧
          data.Properties = none) ∨
        (∃ data : RemoteDependencyData,
          envelope.Data = some ⟨"RemoteDependencyData", BaseData.remoteDependency data⟩ ∧
          data.Properties = none))) ∧
    ∀ (span2 : Span) (process2 : Process),
      span2 = exampleSpan SpanKind.client 0 [] → process2 = exampleProcess →
      newEnvelopeFromSpan mapLib span2 process2
        = newEnvelopeFromSpan mapLib (exampleSpan SpanKind.client 0 []) exampleProcess) :=
  ⟨rfl, C6_empty_attributes mapLib (exampleSpan SpanKind.client 0 []) exampleProcess rfl⟩

/-- C2: for a client or producer span with exactly one `http.url` attribute, whose value
parses to an absolute URL (scheme and host present), `newEnvelopeFromSpan` returns a
`RemoteDependencyData` with `Type` = `HTTP` and `Target` = the host of that URL, port
included. -/
theorem C2_dependency_http_target (lib : Lib) (span : Span) (process : Process)
    (a : KeyValue) (ref : URL)
    (hkind : span.SpanKind = SpanKind.client ∨ span.SpanKind = SpanKind.producer)
    (hone : span.Attributes.filter (fun b => decide (b.Key = HTTPURLKey)) = [a])
    (hparse : lib.urlParse a.Value.AsString = some ref)
    (hscheme : ref.Scheme ≠ "") (hhost : ref.Host ≠ "") :
    ∃ (envelope : Envelope) (data : RemoteDependencyData),
      newEnvelopeFromSpan lib span process = Except.ok envelope ∧
      envelope.Data = some ⟨"RemoteDependencyData", BaseData.remoteDependency data⟩ ∧
      data.Type_ = "HTTP" ∧
      data.Target = ref.Host ∧ data.Target ≠ "" := by
  obtain ⟨v, hloop, hurl⟩ :=
    dependencyLoop_url_one lib span.Attributes ⟨"", none, -1⟩ a ref rfl hone hparse hscheme
  simp only [newEnvelopeFromSpan, not_request_of_client _ hkind, hkind, if_false, if_true, hloop,
    bind, Except.bind, pure, Except.pure]
  refine ⟨_, _, rfl, rfl, ?_, ?_⟩
  · rw [(attachDependencyProps_fields _ _).1]
    exact (setDependencyHTTP_of_url lib v _ _ hurl).1
  · have ht : ∀ d : RemoteDependencyData,
        (attachDependencyProps (attributeProps span.Attributes)
          (setDependencyHTTP lib v d)).Target = ref.Host := by
      intro d
      rw [(attachDependencyProps_fields _ _).2.1, (setDependencyHTTP_of_url lib v d _ hurl).2,
        resolvedAlone_Host]
    exact ⟨ht _, by rw [ht]; exact hhost⟩

/-- C2, at `https://example.com:8080/api/items`. -/
theorem C2_dependency_http_target_witness :
    (clientSpanWithURL.SpanKind = SpanKind.client ∨
      clientSpanWithURL.SpanKind = SpanKind.producer) ∧
    clientSpanWithURL.Attributes.filter (fun b => decide (b.Key = HTTPURLKey))
      = [exampleURLAttr] ∧
    mapLib.urlParse exampleURLAttr.Value.AsString = some exampleURL ∧
    exampleURL.Scheme ≠ "" ∧ exampleURL.Host ≠ "" ∧
    ∃ (envelope : Envelope) (data : RemoteDependencyData),
      newEnvelopeFromSpan mapLib clientSpanWithURL exampleProcess = Except.ok envelope ∧
      envelope.Data = some ⟨"RemoteDependencyData", BaseData.remoteDependency data⟩ ∧
      data.Type_ = "HTTP" ∧
      data.Target = exampleURL.Host ∧ data.Target ≠ "" :=
  ⟨Or.inl rfl, by decide, by decide, by decide, by decide,
    C2_dependency_http_target mapLib clientSpanWithURL exampleProcess exampleURLAttr exampleURL
      (Or.inl rfl) (by decide) (by decide) (by decide) (by decide)⟩

/-- C5 fails without an `http.url` attribute: a client span with the error status and
`http.status_code` = 200 is mapped to `ResultCode` = `1` and `Success` = false, not to
the text of 200 and true. With an `http.url` it fails for an integer outside `int32`:
4294967496 (2^32 + 200) is mapped to `ResultCode` = `200` and `Success` = true. -/
theorem C5_counterexample :
    ((clientSpanWithoutURL.SpanKind = SpanKind.client ∧
      (⟨HTTPStatusCodeKey, IntValue 200⟩ : KeyValue) ∈ clientSpanWithoutURL.Attributes ∧
      (IntValue 200).AsInt32 = 200) ∧
    ∃ (envelope : Envelope) (data : RemoteDependencyData),
      newEnvelopeFromSpan mapLib clientSpanWithoutURL exampleProcess = Except.ok envelope ∧
      envelope.Data = some ⟨"RemoteDependencyData", BaseData.remoteDependency data⟩ ∧
      data.ResultCode = "1" ∧ data.Success = false ∧
      data.ResultCode ≠ sprintfD 200 ∧
      data.Success ≠ decide (200 ≤ (200 : Int) ∧ (200 : Int) < 400)) ∧
    ((clientSpanWideStatus.SpanKind = SpanKind.client ∧
      (⟨HTTPStatusCodeKey, IntValue 4294967496⟩ : KeyValue) ∈ clientSpanWideStatus.Attributes ∧
      exampleURLAttr ∈ clientSpanWideStatus.Attributes) ∧
    ∃ (envelope : Envelope) (data : RemoteDependencyData),
      newEnvelopeFromSpan mapLib clientSpanWideStatus exampleProcess = Except.ok envelope ∧
      envelope.Data = some ⟨"RemoteDependencyData", BaseData.remoteDependency data⟩ ∧
      data.ResultCode = "200" ∧ data.Success = true ∧
      data.ResultCode ≠ sprintfD 4294967496 ∧
      data.Success ≠ decide (200 ≤ (4294967496 : Int) ∧ (4294967496 : Int) < 400)) := by
  constructor
  · refine ⟨by decide, _, _, rfl, rfl, ?_, ?_, ?_, ?_⟩ <;> decide
  · refine ⟨by decide, _, _, rfl, rfl, ?_, ?_, ?_, ?_⟩ <;> decide

/-- C5, amended: for a client or producer span with exactly one `http.url` attribute,
whose value parses to a URL with a scheme, and an `http.status_code` attribute that
holds the integer `s`, with `s` in the range of `int32` and not the sentinel -1, and for
every span status code, the `RemoteDependencyData` has
`Success = (200 <= s and s < 400)` and `ResultCode` the decimal text of `s`. -/
theorem C5_dependency_http_status (lib : Lib) (span : Span) (process : Process)
    (a : KeyValue) (ref : URL) (s : Int)
    (hkind : span.SpanKind = SpanKind.client ∨ span.SpanKind = SpanKind.producer)
    (hone : span.Attributes.filter (fun b => decide (b.Key = HTTPURLKey)) = [a])
    (hparse : lib.urlParse a.Value.AsString = some ref) (hscheme : ref.Scheme ≠ "")
    (hex : ∃ b ∈ span.Attributes, b.Key = HTTPStatusCodeKey)
    (hall : ∀ b ∈ span.Attributes, b.Key = HTTPStatusCodeKey → b.Value = IntValue s)
    (hlo : -2 ^ 31 ≤ s) (hhi : s < 2 ^ 31) (hs : s ≠ -1) :
    ∃ (envelope : Envelope) (data : RemoteDependencyData),
      newEnvelopeFromSpan lib span process = Except.ok envelope ∧
      envelope.Data = some ⟨"RemoteDependencyData", BaseData.remoteDependency data⟩ ∧
      data.Success = decide (200 ≤ s ∧ s < 400) ∧
      data.ResultCode = sprintfD s :=
  dependency_status_of_AsInt32 lib span process a ref s hkind hone hparse hscheme hex
    (fun b hb hk => by rw [hall b hb hk]; exact AsInt32_IntValue s hlo hhi) hs

/-- C5 amended, at a client span with the error status, a URL and the HTTP status 200. -/
theorem C5_dependency_http_status_witness :
    (clientSpanWithURL.SpanKind = SpanKind.client ∨
      clientSpanWithURL.SpanKind = SpanKind.producer) ∧
    clientSpanWithURL.Attributes.filter (fun b => decide (b.Key = HTTPURLKey))
      = [exampleURLAttr] ∧
    mapLib.urlParse exampleURLAttr.Value.AsString = some exampleURL ∧
    exampleURL.Scheme ≠ "" ∧
    (∃ b ∈ clientSpanWithURL.Attributes, b.Key = HTTPStatusCodeKey) ∧
    (∀ b ∈ clientSpanWithURL.Attributes, b.Key = HTTPStatusCodeKey → b.Value = IntValue 200) ∧
    (-2 ^ 31 : Int) ≤ 200 ∧ (200 : Int) < 2 ^ 31 ∧ (200 : Int) ≠ -1 ∧
    ∃ (envelope : Envelope) (data : RemoteDependencyData),
      newEnvelopeFromSpan mapLib clientSpanWithURL exampleProcess = Except.ok envelope ∧
      envelope.Data = some ⟨"RemoteDependencyData", BaseData.remoteDependency data⟩ ∧
      data.Success = decide (200 ≤ (200 : Int) ∧ (200 : Int) < 400) ∧
      data.ResultCode = sprintfD 200 :=
  ⟨Or.inl rfl, by decide, by decide, by decide, by decide, by decide, by decide, by decide,
    by decide,
    C5_dependency_http_status mapLib clientSpanWithURL exampleProcess exampleURLAttr exampleURL
      200 (Or.inl rfl) (by decide) (by decide) (by decide) (by decide) (by decide) (by decide)
      (by decide) (by decide)⟩

/-- C7: for a response with a status other than 200 whose body decodes, `transmit`
returns an error that is `errTransmitRetryable` exactly when the status is 206, 429, 500
or 503, and that is `errTransmitFailed`, not retryable, for every other status. -/
theorem C7_status_classification (lib : Lib) (endpoint : String) (envelopes : List Envelope)
    (buf : String) (req : Request) (res : Response)
    (hmarshal : lib.jsonMarshal envelopes = Except.ok buf)
    (hreq : lib.newRequest "POST" endpoint buf = Except.ok req)
    (hdo : lib.clientDo (withJSONHeaders req) = Except.ok res)
    (hstatus : res.StatusCode ≠ 200)
    (hdecode : ∀ msg received accepted errors,
      lib.jsonDecode res.Body ≠ Decoded.invalid msg received accepted errors) :
    (transmit lib endpoint envelopes).2 ≠ none ∧
    (errorsIs (transmit lib endpoint envelopes).2 Sentinel.errTransmitRetryable = true ↔
      res.StatusCode = 206 ∨ res.StatusCode = 429 ∨ res.StatusCode = 500
        ∨ res.StatusCode = 503) ∧
    (¬ (res.StatusCode = 206 ∨ res.StatusCode = 429 ∨ res.StatusCode = 500
        ∨ res.StatusCode = 503) →
      errorsIs (transmit lib endpoint envelopes).2 Sentinel.errTransmitFailed = true ∧
      errorsIs (transmit lib endpoint envelopes).2 Sentinel.errTransmitRetryable = false) := by
  unfold withJSONHeaders at hdo
  simp only [transmit, hmarshal, hreq, hdo, hstatus, if_false]
  cases hd : lib.jsonDecode res.Body with
  | invalid msg received accepted errors => exact absurd hd (hdecode msg received accepted errors)
  | null =>
    simp only [statusError]
    split_ifs with h <;> simp [errorsIs, h]
  | object received accepted errors =>
    simp only [statusError]
    split_ifs with h <;> simp [errorsIs, h]

/-- C7, at the status 400 with a decoded body. -/
theorem C7_status_classification_witness :
    (answerLib 400 (Decoded.object 1 0 [])).jsonMarshal [] = Except.ok "[]" ∧
    (answerLib 400 (Decoded.object 1 0 [])).newRequest "POST" "https://dc.example/v2/track" "[]"
      = Except.ok ⟨"POST", "https://dc.example/v2/track", [], "[]"⟩ ∧
    (answerLib 400 (Decoded.object 1 0 [])).clientDo
        (withJSONHeaders ⟨"POST", "https://dc.example/v2/track", [], "[]"⟩)
      = Except.ok ⟨400, [], ""⟩ ∧
    (400 : Int) ≠ 200 ∧
    ((transmit (answerLib 400 (Decoded.object 1 0 [])) "https://dc.example/v2/track" []).2
        ≠ none ∧
      (errorsIs
          (transmit (answerLib 400 (Decoded.object 1 0 [])) "https://dc.example/v2/track" []).2
          Sentinel.errTransmitRetryable = true ↔
        (400 : Int) = 206 ∨ (400 : Int) = 429 ∨ (400 : Int) = 500 ∨ (400 : Int) = 503) ∧
      (¬ ((400 : Int) = 206 ∨ (400 : Int) = 429 ∨ (400 : Int) = 500 ∨ (400 : Int) = 503) →
        errorsIs
          (transmit (answerLib 400 (Decoded.object 1 0 [])) "https://dc.example/v2/track" []).2
          Sentinel.errTransmitFailed = true ∧
        errorsIs
          (transmit (answerLib 400 (Decoded.object 1 0 [])) "https://dc.example/v2/track" []).2
          Sentinel.errTransmitRetryable = false)) :=
  ⟨rfl, rfl, rfl, by decide,
    C7_status_classification (answerLib 400 (Decoded.object 1 0 []))
      "https://dc.example/v2/track" [] "[]" ⟨"POST", "https://dc.example/v2/track", [], "[]"⟩
      ⟨400, [], ""⟩ rfl rfl rfl (by decide) (by intro msg received accepted errors h; cases h)⟩

/-- C8: for every batch and every response with status 200, whatever its body, `transmit`
returns a nil error and a result with `Received` = `Accepted` = the size of the batch and
no `Errors`. -/
theorem C8_status_ok (lib : Lib) (endpoint : String) (envelopes : List Envelope)
    (buf : String) (req : Request) (res : Response)
    (hmarshal : lib.jsonMarshal envelopes = Except.ok buf)
    (hreq : lib.newRequest "POST" endpoint buf = Except.ok req)
    (hdo : lib.clientDo (withJSONHeaders req) = Except.ok res)
    (hstatus : res.StatusCode = 200) :
    (transmit lib endpoint envelopes).2 = none ∧
    ∃ result : transmitResult,
      (transmit lib endpoint envelopes).1 = some result ∧
      result.Received = envelopes.length ∧ result.Accepted = envelopes.length ∧
      result.Errors = [] := by
  unfold withJSONHeaders at hdo
  constructor
  · simp only [transmit, hmarshal, hreq, hdo, hstatus, if_true]
  · simp only [transmit, hmarshal, hreq, hdo, hstatus, if_true]
    refine ⟨_, rfl, rfl, rfl, ?_⟩
    split
    · split <;> rfl
    · rfl

/-- C8, at a batch of two envelopes. -/
theorem C8_status_ok_witness :
    (answerLib 200 Decoded.null).jsonMarshal [exampleEnvelope, exampleEnvelope]
      = Except.ok "[]" ∧
    (answerLib 200 Decoded.null).newRequest "POST" "https://dc.example/v2/track" "[]"
      = Except.ok ⟨"POST", "https://dc.example/v2/track", [], "[]"⟩ ∧
    (answerLib 200 Decoded.null).clientDo
        (withJSONHeaders ⟨"POST", "https://dc.example/v2/track", [], "[]"⟩)
      = Except.ok ⟨200, [], ""⟩ ∧
    (transmit (answerLib 200 Decoded.null) "https://dc.example/v2/track"
      [exampleEnvelope, exampleEnvelope]).2 = none ∧
    ∃ result : transmitResult,
      (transmit (answerLib 200 Decoded.null) "https://dc.example/v2/track"
        [exampleEnvelope, exampleEnvelope]).1 = some result ∧
      result.Received = [exampleEnvelope, exampleEnvelope].length ∧
      result.Accepted = [exampleEnvelope, exampleEnvelope].length ∧
      result.Errors = [] :=
  ⟨rfl, rfl, rfl,
    C8_status_ok (answerLib 200 Decoded.null) "https://dc.example/v2/track"
      [exampleEnvelope, exampleEnvelope] "[]" ⟨"POST", "https://dc.example/v2/track", [], "[]"⟩
      ⟨200, [], ""⟩ rfl rfl rfl rfl⟩

/-- C9: when the primary send returns a retryable error with per-item errors `es` whose
indices are all inside the batch, `ExportSpans` leaves the exporter with its retry buffer
followed by the envelopes at those indices, in that order, so `es.length` longer; when it
returns a fatal error the retry buffer is unchanged. Nothing else of the exporter
changes and the error of the send is returned. -/
theorem C9_retry_buffer (lib : Lib) (e : Exporter) (spans : List Span)
    (envelopes : List Envelope) (res : Option transmitResult) (err : WrappedError)
    (es : List transmitError)
    (hmap : mapSpans lib e spans = Except.ok envelopes)
    (hsend : transmit lib e.ingestionEndpoint envelopes = (res, some err))
    (hretry : err.wraps = Sentinel.errTransmitRetryable →
      (∃ r, res = some r ∧ r.Errors = es.map some) ∧
      ∀ x ∈ es, 0 ≤ x.Index ∧ x.Index < envelopes.length) :
    ∃ e' : Exporter,
      Exporter.ExportSpans lib e spans = Except.ok (e', some err) ∧
      (err.wraps = Sentinel.errTransmitRetryable →
        e' = { e with storage := e.storage ++ erroredEnvelopes envelopes es } ∧
        e'.storage.length = e.storage.length + es.length) ∧
      (err.wraps = Sentinel.errTransmitFailed → e' = e) := by
  cases hw : err.wraps with
  | errTransmitRetryable =>
    obtain ⟨⟨r, hr, hes⟩, hin⟩ := hretry hw
    obtain ⟨hstore, hlen⟩ := storeErrored_of_in_range envelopes es e.storage hin
    refine ⟨{ e with storage := e.storage ++ erroredEnvelopes envelopes es }, ?_,
      fun _ => ⟨rfl, by simp [hlen]⟩, fun h => (by cases h)⟩
    simp [Exporter.ExportSpans, hmap, hsend, errorsIs, hw, hr, hes, hstore, bind, Except.bind,
      pure, Except.pure]
  | errTransmitFailed =>
    refine ⟨e, ?_, fun h => (by cases h), fun _ => rfl⟩
    simp [Exporter.ExportSpans, hmap, hsend, errorsIs, hw, bind, Except.bind, pure, Except.pure]

/-- C9, at a batch of two spans answered by 206 with errors for the indices 1 and 0, the
retry buffer holding one envelope before the call. -/
theorem C9_retry_buffer_witness :
    mapSpans partialAnswer (exampleExporter [exampleEnvelope]) exampleBatch
      = Except.ok exampleEnvelopes ∧
    transmit partialAnswer (exampleExporter [exampleEnvelope]).ingestionEndpoint exampleEnvelopes
      = (some ⟨2, 0, partialErrors.map some, none⟩,
          some ⟨Sentinel.errTransmitRetryable, "appinsights: StatusCode=206"⟩) ∧
    (∀ x ∈ partialErrors, 0 ≤ x.Index ∧ x.Index < exampleEnvelopes.length) ∧
    ∃ e' : Exporter,
      Exporter.ExportSpans partialAnswer (exampleExporter [exampleEnvelope]) exampleBatch
        = Except.ok (e', some ⟨Sentinel.errTransmitRetryable, "appinsights: StatusCode=206"⟩) ∧
      ((⟨Sentinel.errTransmitRetryable, "appinsights: StatusCode=206"⟩ : WrappedError).wraps
          = Sentinel.errTransmitRetryable →
        e' = { exampleExporter [exampleEnvelope] with
            storage := (exampleExporter [exampleEnvelope]).storage
              ++ erroredEnvelopes exampleEnvelopes partialErrors } ∧
        e'.storage.length = (exampleExporter [exampleEnvelope]).storage.length
          + partialErrors.length) ∧
      ((⟨Sentinel.errTransmitRetryable, "appinsights: StatusCode=206"⟩ : WrappedError).wraps
          = Sentinel.errTransmitFailed → e' = exampleExporter [exampleEnvelope]) :=
  ⟨by rfl, by rfl, by decide,
    C9_retry_buffer partialAnswer (exampleExporter [exampleEnvelope]) exampleBatch
      exampleEnvelopes (some ⟨2, 0, partialErrors.map some, none⟩)
      ⟨Sentinel.errTransmitRetryable, "appinsights: StatusCode=206"⟩ partialErrors
      (by rfl) (by rfl) (fun _ => ⟨⟨_, rfl, rfl⟩, by decide⟩)⟩

/-- C10 fails on the code: a batch of two spans answered by 206 with a per-item error
for index 5 ends `ExportSpans` in an index-out-of-range panic; a negative index does the
same. -/
theorem C10_stray_index_panics :
    Exporter.ExportSpans strayIndexAnswer (exampleExporter []) exampleBatch
      = Except.error Panic.indexOutOfRange ∧
    Exporter.ExportSpans (answerLib 206 (Decoded.object 2 1 [some ⟨-1, 500, "busy"⟩]))
        (exampleExporter []) exampleBatch
      = Except.error Panic.indexOutOfRange :=
  ⟨by rfl, by rfl⟩

/-- C11 fails on the code: with one envelope in the retry buffer and a primary send
answered by 200, `ExportSpans` returns nil and leaves the retry buffer as it was;
`transmitFromStorage` is not given the buffer and sends nothing. -/
theorem C11_storage_not_drained :
    Exporter.ExportSpans (answerLib 200 Decoded.null) (exampleExporter [exampleEnvelope])
        exampleBatch
      = Except.ok (exampleExporter [exampleEnvelope], none) ∧
    (exampleExporter [exampleEnvelope]).storage ≠ [] :=
  ⟨by rfl, by decide⟩

/-- C12: the batch that `ExportSpans` hands to `transmit` keeps the indices. When every
span of the list maps to an envelope there is a batch of the length of the list whose
`i`-th envelope is `newEnvelopeFromSpan` of the `i`-th span with `IKey` set to the
instrumentation key of the exporter, and what `ExportSpans` does is what the answer of
`transmit` to exactly that batch makes it do, whatever the library does with a batch:
it returns the error of that transmission, and on a retryable one stores the envelopes
of that batch at the indices of the per-item errors. -/
theorem C12_index_preserving (lib : Lib) (e : Exporter) (spans : List Span)
    (hok : ∀ span ∈ spans, ∃ envelope,
      newEnvelopeFromSpan lib span e.process = Except.ok envelope) :
    ∃ envelopes : List Envelope,
      mapSpans lib e spans = Except.ok envelopes ∧
      envelopes.length = spans.length ∧
      (∀ (i : Nat) (span : Span), spans[i]? = some span →
        ∃ envelope, newEnvelopeFromSpan lib span e.process = Except.ok envelope ∧
          envelopes[i]? = some { envelope with IKey := e.instrumentationKey }) ∧
      Exporter.ExportSpans lib e spans
        = if errorsIs (transmit lib e.ingestionEndpoint envelopes).2
              Sentinel.errTransmitRetryable = true then
            match (transmit lib e.ingestionEndpoint envelopes).1 with
            | none => Except.error Panic.nilDereference
            | some r =>
              (storeErrored envelopes e.storage r.Errors).map
                (fun storage =>
                  ({ e with storage := storage }, (transmit lib e.ingestionEndpoint envelopes).2))
          else Except.ok (e, (transmit lib e.ingestionEndpoint envelopes).2) := by
  have hmain : ∃ envelopes : List Envelope,
      mapSpans lib e spans = Except.ok envelopes ∧
      envelopes.length = spans.length ∧
      (∀ (i : Nat) (span : Span), spans[i]? = some span →
        ∃ envelope, newEnvelopeFromSpan lib span e.process = Except.ok envelope ∧
          envelopes[i]? = some { envelope with IKey := e.instrumentationKey }) := by
    induction spans with
    | nil => exact ⟨[], rfl, rfl, fun i span h => by simp at h⟩
    | cons span rest ih =>
      obtain ⟨envelope, h1⟩ := hok span (List.mem_cons_self span rest)
      obtain ⟨envelopes, h2, hlen, hidx⟩ := ih (fun s hs => hok s (List.mem_cons_of_mem span hs))
      refine ⟨_, mapSpans_cons lib e span rest envelope envelopes h1 h2, by simp [hlen], ?_⟩
      intro i s hs
      cases i with
      | zero =>
        simp only [List.getElem?_cons_zero, Option.some.injEq] at hs
        subst hs
        exact ⟨envelope, h1, by simp⟩
      | succ j =>
        simp only [List.getElem?_cons_succ] at hs
        obtain ⟨env, he, hj⟩ := hidx j s hs
        exact ⟨env, he, by simpa using hj⟩
  obtain ⟨envelopes, hmap, hlen, hidx⟩ := hmain
  refine ⟨envelopes, hmap, hlen, hidx, ?_⟩
  simp only [Exporter.ExportSpans, hmap, bind, Except.bind]
  generalize transmit lib e.ingestionEndpoint envelopes = answer
  obtain ⟨res, err⟩ := answer
  cases err with
  | none => simp [errorsIs, transmitFromStorage, pure, Except.pure]
  | some w =>
    by_cases hw : w.wraps = Sentinel.errTransmitRetryable
    · cases res with
      | none => simp [errorsIs, hw]
      | some r =>
        cases hstore : storeErrored envelopes e.storage r.Errors with
        | error p => simp [errorsIs, hw, hstore, Except.map]
        | ok storage => simp [errorsIs, hw, hstore, Except.map, pure, Except.pure]
    · simp [errorsIs, hw, pure, Except.pure]

/-- C12, at a batch of a server span and a client span under a library that lists the
batch it is given in the body it sends and whose network fails with that body: the error
that `ExportSpans` returns names the two envelopes in the order of the spans. -/
theorem C12_index_preserving_witness :
    (∀ span ∈ mixedBatch, ∃ envelope,
      newEnvelopeFromSpan echoLib span (exampleExporter []).process = Except.ok envelope) ∧
    (∃ envelopes : List Envelope,
      mapSpans echoLib (exampleExporter []) mixedBatch = Except.ok envelopes ∧
      envelopes.length = mixedBatch.length ∧
      (∀ (i : Nat) (span : Span), mixedBatch[i]? = some span →
        ∃ envelope,
          newEnvelopeFromSpan echoLib span (exampleExporter []).process = Except.ok envelope ∧
          envelopes[i]? = some { envelope with IKey := (exampleExporter []).instrumentationKey }) ∧
      Exporter.ExportSpans echoLib (exampleExporter []) mixedBatch
        = if errorsIs (transmit echoLib (exampleExporter []).ingestionEndpoint envelopes).2
              Sentinel.errTransmitRetryable = true then
            match (transmit echoLib (exampleExporter []).ingestionEndpoint envelopes).1 with
            | none => Except.error Panic.nilDereference
            | some r =>
              (storeErrored envelopes (exampleExporter []).storage r.Errors).map
                (fun storage =>
                  ({ exampleExporter [] with storage := storage },
                    (transmit echoLib (exampleExporter []).ingestionEndpoint envelopes).2))
          else
            Except.ok (exampleExporter [],
              (transmit echoLib (exampleExporter []).ingestionEndpoint envelopes).2)) ∧
    Exporter.ExportSpans echoLib (exampleExporter []) mixedBatch
      = Except.ok (exampleExporter [],
          some ⟨Sentinel.errTransmitRetryable,
            "appinsights: failed to send request: "
              ++ "[ikey-1 RequestData GET /items/:id][ikey-1 RemoteDependencyData op]"⟩) :=
  have hok : ∀ span ∈ mixedBatch, ∃ envelope,
      newEnvelopeFromSpan echoLib span (exampleExporter []).process = Except.ok envelope := by
    intro span hs
    simp only [mixedBatch, List.mem_cons, List.mem_singleton, List.not_mem_nil, or_false] at hs
    rcases hs with rfl | rfl
    · exact ⟨_, rfl⟩
    · exact ⟨_, rfl⟩
  ⟨hok, C12_index_preserving echoLib (exampleExporter []) mixedBatch hok, by rfl⟩

/-- C18: for a response with a status other than 200 whose body does not decode,
`transmit` returns a retryable error, whatever the status, 400 included. -/
theorem C18_decode_failure_retryable (lib : Lib) (endpoint : String)
    (envelopes : List Envelope) (buf : String) (req : Request) (res : Response)
    (msg : String) (received accepted : Int) (errors : List (Option transmitError))
    (hmarshal : lib.jsonMarshal envelopes = Except.ok buf)
    (hreq : lib.newRequest "POST" endpoint buf = Except.ok req)
    (hdo : lib.clientDo (withJSONHeaders req) = Except.ok res)
    (hstatus : res.StatusCode ≠ 200)
    (hdecode : lib.jsonDecode res.Body = Decoded.invalid msg received accepted errors) :
    errorsIs (transmit lib endpoint envelopes).2 Sentinel.errTransmitRetryable = true ∧
    errorsIs (transmit lib endpoint envelopes).2 Sentinel.errTransmitFailed = false := by
  unfold withJSONHeaders at hdo
  simp [transmit, hmarshal, hreq, hdo, hstatus, hdecode, errorsIs]

/-- C18, at the status 400 with a body that is not JSON. -/
theorem C18_decode_failure_retryable_witness :
    (answerLib 400 (Decoded.invalid "EOF" 0 0 [])).jsonMarshal [] = Except.ok "[]" ∧
    (answerLib 400 (Decoded.invalid "EOF" 0 0 [])).newRequest "POST"
        "https://dc.example/v2/track" "[]"
      = Except.ok ⟨"POST", "https://dc.example/v2/track", [], "[]"⟩ ∧
    (answerLib 400 (Decoded.invalid "EOF" 0 0 [])).clientDo
        (withJSONHeaders ⟨"POST", "https://dc.example/v2/track", [], "[]"⟩)
      = Except.ok ⟨400, [], ""⟩ ∧
    (400 : Int) ≠ 200 ∧
    (answerLib 400 (Decoded.invalid "EOF" 0 0 [])).jsonDecode "" = Decoded.invalid "EOF" 0 0 [] ∧
    errorsIs
      (transmit (answerLib 400 (Decoded.invalid "EOF" 0 0 [])) "https://dc.example/v2/track" []).2
      Sentinel.errTransmitRetryable = true ∧
    errorsIs
      (transmit (answerLib 400 (Decoded.invalid "EOF" 0 0 [])) "https://dc.example/v2/track" []).2
      Sentinel.errTransmitFailed = false :=
  ⟨rfl, rfl, rfl, by decide, rfl,
    C18_decode_failure_retryable (answerLib 400 (Decoded.invalid "EOF" 0 0 []))
      "https://dc.example/v2/track" [] "[]" ⟨"POST", "https://dc.example/v2/track", [], "[]"⟩
      ⟨400, [], ""⟩ "EOF" 0 0 [] rfl rfl rfl (by decide) rfl⟩

/-- C17: the envelope that `newEnvelopeFromSpan` returns has a non-nil `Data` whose
`BaseType` is `RequestData` exactly when `BaseData` is a `RequestData`, which is exactly
when the kind is server or consumer, and is `RemoteDependencyData` exactly when
`BaseData` is a `RemoteDependencyData` (the kinds internal, client, producer and
unspecified), the envelope being named after the Request or the RemoteDependency record
type accordingly; and for the kinds other than client and producer an envelope is
returned. -/
theorem C17_discriminant (lib : Lib) (span : Span) (process : Process) :
    (∀ envelope : Envelope, newEnvelopeFromSpan lib span process = Except.ok envelope →
      ∃ data : Data, envelope.Data = some data ∧
        (data.BaseType = "RequestData" ↔ ∃ d, data.BaseData = BaseData.request d) ∧
        ((∃ d, data.BaseData = BaseData.request d) ↔
          (span.SpanKind = SpanKind.server ∨ span.SpanKind = SpanKind.consumer)) ∧
        (data.BaseType = "RemoteDependencyData" ↔
          ∃ d, data.BaseData = BaseData.remoteDependency d) ∧
        ((∃ d, data.BaseData = BaseData.remoteDependency d) ↔
          (span.SpanKind = SpanKind.internal ∨ span.SpanKind = SpanKind.client ∨
            span.SpanKind = SpanKind.producer ∨ span.SpanKind = SpanKind.unspecified)) ∧
        (span.SpanKind = SpanKind.server ∨ span.SpanKind = SpanKind.consumer →
          envelope.Name = "Microsoft.Applicationappinsights.Request") ∧
        (¬ (span.SpanKind = SpanKind.server ∨ span.SpanKind = SpanKind.consumer) →
          envelope.Name = "Microsoft.Applicationappinsights.RemoteDependency")) ∧
    (span.SpanKind ≠ SpanKind.client → span.SpanKind ≠ SpanKind.producer →
      ∃ envelope : Envelope, newEnvelopeFromSpan lib span process = Except.ok envelope) := by
  by_cases hk : span.SpanKind = SpanKind.consumer ∨ span.SpanKind = SpanKind.server
  · obtain ⟨env0, d0, h0, hname, hdata⟩ := newEnvelopeFromSpan_request_shape lib span process hk
    refine ⟨?_, fun _ _ => ⟨env0, h0⟩⟩
    intro envelope h
    rw [h0] at h
    cases h
    refine ⟨_, hdata, ?_, ?_, ?_, ?_, fun _ => hname, fun hn => absurd hk.symm hn⟩
    · exact ⟨fun _ => ⟨d0, rfl⟩, fun _ => rfl⟩
    · exact ⟨fun _ => hk.symm, fun _ => ⟨d0, rfl⟩⟩
    · constructor
      · intro hb
        simp at hb
      · rintro ⟨d, hd⟩
        cases hd
    · constructor
      · rintro ⟨d, hd⟩
        cases hd
      · intro hkind
        rcases hk with hk | hk <;> rw [hk] at hkind <;> simp at hkind
  · refine ⟨?_, fun h1 h2 => newEnvelopeFromSpan_dependency_total lib span process hk
      (fun h => h.elim h1 h2)⟩
    intro envelope h
    obtain ⟨hname, d0, hdata⟩ := newEnvelopeFromSpan_dependency_shape lib span process envelope hk h
    have hk' : ¬ (span.SpanKind = SpanKind.server ∨ span.SpanKind = SpanKind.consumer) :=
      fun h => hk h.symm
    refine ⟨_, hdata, ?_, ?_, ?_, ?_, fun hs => absurd hs hk', fun _ => hname⟩
    · constructor
      · intro hb
        simp at hb
      · rintro ⟨d, hd⟩
        cases hd
    · constructor
      · rintro ⟨d, hd⟩
        cases hd
      · intro hs
        exact absurd hs hk'
    · exact ⟨fun _ => ⟨d0, rfl⟩, fun _ => rfl⟩
    · refine ⟨fun _ => ?_, fun _ => ⟨d0, rfl⟩⟩
      cases hkind : span.SpanKind <;> simp [hkind] at hk ⊢

/-- C15 fails on the code: a server span with `http.method` = `GET`, no `http.route` and
`http.target` = `/items` gets the name and the operation name tag `GET` followed by a
space, not `GET /items`. -/
theorem C15_path_fallback_uses_route :
    (serverSpanWithPath.SpanKind = SpanKind.server ∧
      attrString HTTPMethodKey serverSpanWithPath.Attributes = "GET" ∧
      attrString HTTPRouteKey serverSpanWithPath.Attributes = "" ∧
      attrString HTTPTargetKey serverSpanWithPath.Attributes = "/items") ∧
    ∃ (envelope : Envelope) (data : RequestData),
      newEnvelopeFromSpan mapLib serverSpanWithPath exampleProcess = Except.ok envelope ∧
      envelope.Data = some ⟨"RequestData", BaseData.request data⟩ ∧
      data.Name = "GET " ∧
      envelope.Tags.get "ai.operation.name" = some "GET " ∧
      data.Name ≠ "GET" ++ " " ++ "/items" := by
  refine ⟨by decide, _, _, rfl, rfl, ?_, ?_, ?_⟩ <;> decide

/-- C20 fails on the code: a client span whose `http.url` is the scheme-less
`example.com/x`, which `url.Parse` accepts as a path, ends `newEnvelopeFromSpan` in a nil
dereference: the parse is the method of the nil local `url`, whose `ResolveReference`
reads the scheme of the receiver. -/
theorem C20_relative_url_panics :
    relativeParse "example.com/x" = some relativeURL ∧
    newEnvelopeFromSpan (exampleLib relativeParse (Except.error "no network") Decoded.null)
        clientSpanRelativeURL exampleProcess
      = Except.error Panic.nilDereference :=
  ⟨by decide, by rfl⟩

/-- C16: for a server or consumer span with a non-empty `http.method` `M` and a non-empty
`http.route` `R`, with or without an `http.target`, the name of the `RequestData` is
`M`, a space and `R`, and the same string is the envelope tag `ai.operation.name` and the
property `request.name` of the attached `Properties` map. -/
theorem C16_route_name (lib : Lib) (span : Span) (process : Process) (M R : String)
    (hkind : span.SpanKind = SpanKind.server ∨ span.SpanKind = SpanKind.consumer)
    (hM : attrString HTTPMethodKey span.Attributes = M) (hMne : M ≠ "")
    (hR : attrString HTTPRouteKey span.Attributes = R) (hRne : R ≠ "") :
    ∃ (envelope : Envelope) (data : RequestData) (props : StrMap),
      newEnvelopeFromSpan lib span process = Except.ok envelope ∧
      envelope.Data = some ⟨"RequestData", BaseData.request data⟩ ∧
      data.Name = M ++ " " ++ R ∧
      envelope.Tags.get "ai.operation.name" = some (M ++ " " ++ R) ∧
      data.Properties = some props ∧
      props.get "request.name" = some (M ++ " " ++ R) := by
  have hk : span.SpanKind = SpanKind.consumer ∨ span.SpanKind = SpanKind.server := hkind.symm
  have hvm := requestLoop_method span.Attributes
  have hvr := requestLoop_route span.Attributes
  rw [hM] at hvm
  rw [hR] at hvr
  simp only [newEnvelopeFromSpan, hk, if_true]
  generalize span.Attributes.foldl requestAttr ⟨"", "", "", "", "", "", -1⟩ = v at hvm hvr
  generalize hs0 : (⟨{ envelopeShell lib span process with
      Name := "Microsoft.Applicationappinsights.Request" },
    { Ver := 2, ID := span.SpanContext.SpanID.String, Source := "", Name := "",
      Duration := fmtDuration (lib.timeSub span.EndTime span.StartTime),
      ResponseCode := sprintfD span.StatusCode,
      Success := decide (span.StatusCode = codesOk), URL := "", Properties := none,
      Measurements := none },
    attributeProps span.Attributes⟩ : RequestState) = s0
  have h1 := setRequestName_of_route v s0 (by rw [hvm]; exact hMne) (by rw [hvr]; exact hRne)
  rw [hvm, hvr] at h1
  have hget : (setRequestStatus v.status
      (setRequestURL (requestURL v) (setRequestName v s0))).props.get "request.name"
        = some (M ++ " " ++ R) := by
    rw [setRequestStatus_props, setRequestURL_props_get _ _ _ (by decide), h1]
    exact StrMap.get_set_self _ _ _
  refine ⟨_, _, _, rfl, rfl, ?_, ?_, attachRequestProps_of_get _ _ _ hget, hget⟩
  · rw [attachRequestProps_data_Name, setRequestStatus_data_Name, setRequestURL_data_Name, h1]
  · simp only [attachRequestProps_envelope, setRequestStatus_envelope, setRequestURL_envelope]
    rw [h1]
    exact StrMap.get_set_self _ _ _

/-- C16, at `GET` and the route `/items/:id` on a span that also has a target. -/
theorem C16_route_name_witness :
    (serverSpanWithRoute.SpanKind = SpanKind.server ∨
      serverSpanWithRoute.SpanKind = SpanKind.consumer) ∧
    attrString HTTPMethodKey serverSpanWithRoute.Attributes = "GET" ∧ "GET" ≠ "" ∧
    attrString HTTPRouteKey serverSpanWithRoute.Attributes = "/items/:id" ∧
    "/items/:id" ≠ "" ∧
    ∃ (envelope : Envelope) (data : RequestData) (props : StrMap),
      newEnvelopeFromSpan mapLib serverSpanWithRoute exampleProcess = Except.ok envelope ∧
      envelope.Data = some ⟨"RequestData", BaseData.request data⟩ ∧
      data.Name = "GET" ++ " " ++ "/items/:id" ∧
      envelope.Tags.get "ai.operation.name" = some ("GET" ++ " " ++ "/items/:id") ∧
      data.Properties = some props ∧
      props.get "request.name" = some ("GET" ++ " " ++ "/items/:id") :=
  ⟨Or.inl rfl, by decide, by decide, by decide, by decide,
    C16_route_name mapLib serverSpanWithRoute exampleProcess "GET" "/items/:id" (Or.inl rfl)
      (by decide) (by decide) (by decide) (by decide)⟩

/-- C19: for a server or consumer span, when `http.url` is absent or empty and
`http.scheme` `S`, `http.host` `H` and `http.target` `P` are non-empty, the URL of the
`RequestData` is `S://H/` followed by `P` without its leading `/` characters, and when
`http.url` is a non-empty `U` it is `U`; the same string is the property `request.url`
of the attached `Properties` map. -/
theorem C19_request_url (lib : Lib) (span : Span) (process : Process) (url : String)
    (hkind : span.SpanKind = SpanKind.server ∨ span.SpanKind = SpanKind.consumer)
    (hurl :
      (attrString HTTPURLKey span.Attributes = "" ∧
        attrString HTTPSchemeKey span.Attributes ≠ "" ∧
        attrString HTTPHostKey span.Attributes ≠ "" ∧
        attrString HTTPTargetKey span.Attributes ≠ "" ∧
        url = attrString HTTPSchemeKey span.Attributes ++ "://"
          ++ attrString HTTPHostKey span.Attributes ++ "/"
          ++ String.mk ((attrString HTTPTargetKey span.Attributes).toList.dropWhile
              (fun c => c = '/'))) ∨
      (attrString HTTPURLKey span.Attributes ≠ "" ∧
        url = attrString HTTPURLKey span.Attributes)) :
    ∃ (envelope : Envelope) (data : RequestData) (props : StrMap),
      newEnvelopeFromSpan lib span process = Except.ok envelope ∧
      envelope.Data = some ⟨"RequestData", BaseData.request data⟩ ∧
      data.URL = url ∧
      data.Properties = some props ∧
      props.get "request.url" = some url := by
  have hk : span.SpanKind = SpanKind.consumer ∨ span.SpanKind = SpanKind.server := hkind.symm
  have hvu := requestLoop_url span.Attributes
  have hvs := requestLoop_scheme span.Attributes
  have hvh := requestLoop_host span.Attributes
  have hvp := requestLoop_path span.Attributes
  simp only [newEnvelopeFromSpan, hk, if_true]
  generalize span.Attributes.foldl requestAttr ⟨"", "", "", "", "", "", -1⟩ = v
    at hvu hvs hvh hvp
  have htrim : ∀ P : String, trimLeft P "/" = String.mk (P.toList.dropWhile (fun c => c = '/')) := by
    intro P
    unfold trimLeft
    congr 1
    apply congrArg (fun p => List.dropWhile p P.toList)
    funext c
    simp [String.toList]
  have hreq : requestURL v = url ∧ url ≠ "" := by
    unfold requestURL
    rcases hurl with ⟨h0, hS, hH, hP, hu⟩ | ⟨h0, hu⟩
    · rw [if_pos ⟨by rw [hvu]; exact h0, by rw [hvs]; exact hS, by rw [hvh]; exact hH,
        by rw [hvp]; exact hP⟩, hvs, hvh, hvp, htrim, ← hu]
      refine ⟨rfl, ?_⟩
      rw [hu]
      simp only [String.append_assoc]
      exact String.append_ne_empty_left _ _ hS
    · have hne : ¬ (v.url = "" ∧ v.scheme ≠ "" ∧ v.host ≠ "" ∧ v.path ≠ "") := by
        rw [hvu]
        exact fun h => h0 h.1
      rw [if_neg hne, hvu, ← hu]
      exact ⟨rfl, by rw [hu]; exact h0⟩
  rw [hreq.1]
  generalize setRequestName v _ = s1
  have h2 := setRequestURL_of_ne url s1 hreq.2
  have hget : (setRequestStatus v.status (setRequestURL url s1)).props.get "request.url"
      = some url := by
    rw [setRequestStatus_props, h2]
    exact StrMap.get_set_self _ _ _
  refine ⟨_, _, _, rfl, rfl, ?_, attachRequestProps_of_get _ _ _ hget, hget⟩
  rw [attachRequestProps_data_URL, setRequestStatus_data_URL, h2]

/-- C19, at the scheme `https`, the host `shop.example` and the target `//items/7`. -/
theorem C19_request_url_witness :
    (serverSpanWithRoute.SpanKind = SpanKind.server ∨
      serverSpanWithRoute.SpanKind = SpanKind.consumer) ∧
    ((attrString HTTPURLKey serverSpanWithRoute.Attributes = "" ∧
        attrString HTTPSchemeKey serverSpanWithRoute.Attributes ≠ "" ∧
        attrString HTTPHostKey serverSpanWithRoute.Attributes ≠ "" ∧
        attrString HTTPTargetKey serverSpanWithRoute.Attributes ≠ "" ∧
        "https://shop.example/items/7"
          = attrString HTTPSchemeKey serverSpanWithRoute.Attributes ++ "://"
            ++ attrString HTTPHostKey serverSpanWithRoute.Attributes ++ "/"
            ++ String.mk ((attrString HTTPTargetKey serverSpanWithRoute.Attributes).toList.dropWhile
                (fun c => c = '/'))) ∨
      (attrString HTTPURLKey serverSpanWithRoute.Attributes ≠ "" ∧
        "https://shop.example/items/7" = attrString HTTPURLKey serverSpanWithRoute.Attributes)) ∧
    ∃ (envelope : Envelope) (data : RequestData) (props : StrMap),
      newEnvelopeFromSpan mapLib serverSpanWithRoute exampleProcess = Except.ok envelope ∧
      envelope.Data = some ⟨"RequestData", BaseData.request data⟩ ∧
      data.URL = "https://shop.example/items/7" ∧
      data.Properties = some props ∧
      props.get "request.url" = some "https://shop.example/items/7" :=
  ⟨Or.inl rfl, Or.inl (by decide),
    C19_request_url mapLib serverSpanWithRoute exampleProcess "https://shop.example/items/7"
      (Or.inl rfl) (Or.inl (by decide))⟩

/-- C13 fails on the code for a key with upper-case letters: the whole connection string
is lower-cased before it is split, so the key `ABC` is returned as `abc`. -/
theorem C13_counterexample :
    stringsToLower id "InstrumentationKey" = "instrumentationkey" ∧
    stringsToLower id "IngestionEndpoint" = "ingestionendpoint" ∧
    ';' ∉ "ABC".toList ∧ ';' ∉ "https://x.example".toList ∧
    parseConnectionString id
        ("InstrumentationKey" ++ "=" ++ "ABC" ++ ";" ++ "IngestionEndpoint" ++ "="
          ++ "https://x.example")
      = ("https://x.example/v2/track", "abc", none) ∧
    (parseConnectionString id
        ("InstrumentationKey" ++ "=" ++ "ABC" ++ ";" ++ "IngestionEndpoint" ++ "="
          ++ "https://x.example")).2.1 ≠ "ABC" := by
  decide

/-- C13, amended: for a key value `V` and an endpoint value `E` without `;` that
lower-casing leaves unchanged, `E` not empty, and key names `k1`, `k2` that are
`InstrumentationKey` and `IngestionEndpoint` in any letter case,
`parseConnectionString` of `k1=V;k2=E` returns the key `V`, the endpoint `E` without its
trailing `/` and space characters followed by `/v2/track`, and no error; `abc` and
`https://x.example` give `abc` and `https://x.example/v2/track`. -/
theorem C13_key_and_endpoint (unicodeToLower : Char → Char) (k1 k2 V E : String)
    (hk1 : stringsToLower unicodeToLower k1 = "instrumentationkey")
    (hk2 : stringsToLower unicodeToLower k2 = "ingestionendpoint")
    (hV : stringsToLower unicodeToLower V = V) (hE : stringsToLower unicodeToLower E = E)
    (hVs : ';' ∉ V.toList) (hEs : ';' ∉ E.toList) (hEne : E ≠ "") :
    parseConnectionString unicodeToLower (k1 ++ "=" ++ V ++ ";" ++ k2 ++ "=" ++ E)
      = (String.mk (E.toList.rdropWhile (fun c => decide (c = '/' ∨ c = ' '))) ++ "/v2/track",
          V, none) ∧
    parseConnectionString unicodeToLower
        "InstrumentationKey=abc;IngestionEndpoint=https://x.example"
      = ("https://x.example/v2/track", "abc", none) := by
  constructor
  · have hlow : stringsToLower unicodeToLower (k1 ++ "=" ++ V ++ ";" ++ k2 ++ "=" ++ E)
        = ("instrumentationkey" ++ "=" ++ V) ++ ";" ++ ("ingestionendpoint" ++ "=" ++ E) := by
      have he : stringsToLower unicodeToLower "=" = "=" := rfl
      have hs : stringsToLower unicodeToLower ";" = ";" := rfl
      simp only [stringsToLower_append, hk1, hk2, hV, hE, he, hs, String.append_assoc]
    have hp1 : ';' ∉ ("instrumentationkey" ++ "=" ++ V).toList := by
      rw [String.toList_append', List.mem_append]
      rintro (h | h)
      · revert h
        decide
      · exact hVs h
    have hp2 : ';' ∉ ("ingestionendpoint" ++ "=" ++ E).toList := by
      rw [String.toList_append', List.mem_append]
      rintro (h | h)
      · revert h
        decide
      · exact hEs h
    have hsplit := stringsSplit_two _ _ hp1 hp2
    have hep : connectionValue "ingestionendpoint"
        (("instrumentationkey" ++ "=" ++ V) ++ ";" ++ ("ingestionendpoint" ++ "=" ++ E)) = E := by
      unfold connectionValue lastPairValue
      rw [hsplit]
      simp only [List.reverse_cons, List.reverse_nil, List.nil_append, List.singleton_append,
        List.find?_cons, pairValue_self, Option.isSome_some, Option.getD_some]
    have hik : connectionValue "instrumentationkey"
        (("instrumentationkey" ++ "=" ++ V) ++ ";" ++ ("ingestionendpoint" ++ "=" ++ E)) = V := by
      unfold connectionValue lastPairValue
      rw [hsplit]
      simp only [List.reverse_cons, List.reverse_nil, List.nil_append, List.singleton_append,
        List.find?_cons, pairValue_self, pairValue_instrumentationkey_of_endpoint,
        Option.isSome_some, Option.isSome_none, Option.getD_some]
    rw [parseConnectionString_eq, hlow, hik, stringsTrimRight_slash_space]
    unfold resolvedBase
    rw [hep, if_pos hEne]
  · have h : stringsToLower unicodeToLower
        "InstrumentationKey=abc;IngestionEndpoint=https://x.example"
        = "instrumentationkey=abc;ingestionendpoint=https://x.example" := rfl
    rw [parseConnectionString_eq, h]
    decide

/-- C13 amended, at `abc` and an endpoint that ends in two slashes, the second key name
in capitals. -/
theorem C13_key_and_endpoint_witness :
    stringsToLower id "InstrumentationKey" = "instrumentationkey" ∧
    stringsToLower id "INGESTIONENDPOINT" = "ingestionendpoint" ∧
    stringsToLower id "abc" = "abc" ∧
    stringsToLower id "https://x.example//" = "https://x.example//" ∧
    ';' ∉ "abc".toList ∧ ';' ∉ "https://x.example//".toList ∧ "https://x.example//" ≠ "" ∧
    (parseConnectionString id
        ("InstrumentationKey" ++ "=" ++ "abc" ++ ";" ++ "INGESTIONENDPOINT" ++ "="
          ++ "https://x.example//")
      = (String.mk ("https://x.example//".toList.rdropWhile
            (fun c => decide (c = '/' ∨ c = ' '))) ++ "/v2/track", "abc", none) ∧
    parseConnectionString id "InstrumentationKey=abc;IngestionEndpoint=https://x.example"
      = ("https://x.example/v2/track", "abc", none)) :=
  ⟨by decide, by decide, by decide, by decide, by decide, by decide, by decide,
    C13_key_and_endpoint id "InstrumentationKey" "INGESTIONENDPOINT" "abc" "https://x.example//"
      (by decide) (by decide) (by decide) (by decide) (by decide) (by decide) (by decide)⟩

/-- C14 fails on the code for a base that ends in a space: `TrimRight` is given the cutset
of the space and the slash, so the endpoint value `https://x.example` followed by a
space gives `https://x.example/v2/track`, not the base with only its slashes trimmed. -/
theorem C14_counterexample :
    stringsToLower id "ingestionendpoint=https://x.example "
      = "ingestionendpoint=https://x.example " ∧
    connectionValue "ingestionendpoint" "ingestionendpoint=https://x.example "
      = "https://x.example " ∧
    (parseConnectionString id "ingestionendpoint=https://x.example ").1
      = "https://x.example/v2/track" ∧
    (parseConnectionString id "ingestionendpoint=https://x.example ").1
      ≠ String.mk ("https://x.example ".toList.rdropWhile (fun c => decide (c = '/')))
          ++ "/v2/track" := by
  decide

/-- C14, amended: for a connection string that lower-casing leaves unchanged, the
returned endpoint is a base without its trailing `/` and space characters followed by
`/v2/track`, where the base is the ingestion endpoint value when it is not empty, else
`https://` + location + `dc.` + suffix when the endpoint suffix value is not empty, else
`https://dc.services.visualstudio.com`; the returned error is nil. The example with a
suffix and the location `westus.` gives `https://westus.dc.example.com/v2/track`, the
empty string gives the default. -/
theorem C14_resolution_order (unicodeToLower : Char → Char) (cs : String)
    (hlower : stringsToLower unicodeToLower cs = cs) :
    (∃ base : String,
      (parseConnectionString unicodeToLower cs).1
        = String.mk (base.toList.rdropWhile (fun c => decide (c = '/' ∨ c = ' ')))
            ++ "/v2/track" ∧
      (connectionValue "ingestionendpoint" cs ≠ "" →
        base = connectionValue "ingestionendpoint" cs) ∧
      (connectionValue "ingestionendpoint" cs = "" →
        connectionValue "endpointsuffix" cs ≠ "" →
        base = "https://" ++ connectionValue "location" cs ++ "dc."
          ++ connectionValue "endpointsuffix" cs) ∧
      (connectionValue "ingestionendpoint" cs = "" →
        connectionValue "endpointsuffix" cs = "" →
        base = "https://dc.services.visualstudio.com")) ∧
    (parseConnectionString unicodeToLower cs).2.2 = none ∧
    (parseConnectionString unicodeToLower
        "instrumentationkey=abc;endpointsuffix=example.com;location=westus.").1
      = "https://westus.dc.example.com/v2/track" ∧
    (parseConnectionString unicodeToLower "").1
      = "https://dc.services.visualstudio.com/v2/track" := by
  refine ⟨⟨resolvedBase cs, ?_, ?_, ?_, ?_⟩, ?_, ?_, ?_⟩
  · rw [parseConnectionString_eq, hlower, stringsTrimRight_slash_space]
  · intro h
    unfold resolvedBase
    rw [if_pos h]
  · intro h1 h2
    unfold resolvedBase
    rw [if_neg (not_not.mpr h1), if_pos h2]
  · intro h1 h2
    unfold resolvedBase
    rw [if_neg (not_not.mpr h1), if_neg (not_not.mpr h2)]
  · rw [parseConnectionString_eq]
  · have h : stringsToLower unicodeToLower
        "instrumentationkey=abc;endpointsuffix=example.com;location=westus."
        = "instrumentationkey=abc;endpointsuffix=example.com;location=westus." := rfl
    rw [parseConnectionString_eq, h]
    decide
  · have h : stringsToLower unicodeToLower "" = "" := rfl
    rw [parseConnectionString_eq, h]
    decide

/-- C14 amended, at a connection string with a location and no suffix, the endpoint
absent. -/
theorem C14_resolution_order_witness :
    stringsToLower id "instrumentationkey=abc;location=westus."
      = "instrumentationkey=abc;location=westus." ∧
    ((∃ base : String,
      (parseConnectionString id "instrumentationkey=abc;location=westus.").1
        = String.mk (base.toList.rdropWhile (fun c => decide (c = '/' ∨ c = ' ')))
            ++ "/v2/track" ∧
      (connectionValue "ingestionendpoint" "instrumentationkey=abc;location=westus." ≠ "" →
        base = connectionValue "ingestionendpoint" "instrumentationkey=abc;location=westus.") ∧
      (connectionValue "ingestionendpoint" "instrumentationkey=abc;location=westus." = "" →
        connectionValue "endpointsuffix" "instrumentationkey=abc;location=westus." ≠ "" →
        base = "https://" ++ connectionValue "location" "instrumentationkey=abc;location=westus."
          ++ "dc." ++ connectionValue "endpointsuffix" "instrumentationkey=abc;location=westus.") ∧
      (connectionValue "ingestionendpoint" "instrumentationkey=abc;location=westus." = "" →
        connectionValue "endpointsuffix" "instrumentationkey=abc;location=westus." = "" →
        base = "https://dc.services.visualstudio.com")) ∧
    (parseConnectionString id "instrumentationkey=abc;location=westus.").2.2 = none ∧
    (parseConnectionString id
        "instrumentationkey=abc;endpointsuffix=example.com;location=westus.").1
      = "https://westus.dc.example.com/v2/track" ∧
    (parseConnectionString id "").1 = "https://dc.services.visualstudio.com/v2/track") :=
  ⟨by decide, C14_resolution_order id "instrumentationkey=abc;location=westus." (by decide)⟩

end AppInsights
